import Mathlib

/-!
# go-fiber-crud: the authentication and existence gates

A shallow embedding of `internal/user/middleware.go`, `internal/user/handler.go` and
`internal/user/generatetoken/token-gen.go`, and the properties of the gate chain.

Conventions of the embedding.

* A Go `string` and a Go `[]byte` are both a Lean `String`. The only byte-level operation the
  program performs itself is `strings.Split` on an ASCII separator, which cuts a UTF-8 string
  at the same places bytewise and characterwise.
* A Go `error` is the `String` its `Error()` method returns; a nilable Go value is an `Option`.
* `time.Time` is a natural number of nanoseconds since the Unix epoch (a clock not before 1970).
* The HTTP framework is reduced to what the handlers read of a request (`Ctx`) and to the rule
  that a chain of handlers runs in registration order until one does not call `Next`.
* The packages `encoding/json`, `encoding/base64` and `crypto/hmac` are parameters
  (`jwt.Primitives`); the control flow of `github.com/golang-jwt/jwt/v5` around them is written
  out in the namespace `jwt`.
* Every run carries a trace of the handlers entered and of the collaborator calls made, in
  order, so that "is never invoked" is a statement about the trace.
-/

/-! ## Go standard library -/

namespace strings

/-- Go `strings.Split(s, sep)` for a one-character separator: all pieces of `s` between the
occurrences of `sep`, one more piece than there are occurrences. -/
def Split (s : String) (sep : Char) : List String :=
  (s.toList.splitOn sep).map String.mk

end strings

namespace time

/-- Go `time.Hour`, a duration in nanoseconds. -/
def Hour : Nat := 3600 * 1000000000

/-- Go `t.Unix()`: whole seconds since the epoch of a time given in nanoseconds. -/
def Unix (t : Nat) : Int := ((t / 1000000000 : Nat) : Int)

end time

/-- A JSON value as far as token headers and claims use them (numbers are integral). -/
inductive JSONValue where
  | null
  | bool (b : Bool)
  | num (n : Int)
  | str (s : String)
  deriving DecidableEq, Repr

/-- Go `map[string]interface{}` holding JSON values (`jwt.MapClaims`, a token header), as its
list of entries; a key is looked up with `List.lookup`. -/
abbrev JSONMap := List (String × JSONValue)

/-! ## The JWT library (`github.com/golang-jwt/jwt/v5`) -/

namespace jwt

/-- The hash functions of the HMAC signing methods. -/
inductive Hash where
  | SHA256
  | SHA384
  | SHA512
  deriving DecidableEq, Repr

/-- The signing methods the library registers. -/
inductive SigningMethod where
  | HS256
  | HS384
  | HS512
  | RS256
  | RS384
  | RS512
  | PS256
  | PS384
  | PS512
  | ES256
  | ES384
  | ES512
  | EdDSA
  | None
  deriving DecidableEq, Repr

/-- The `alg` header value of a signing method (`Alg()`). -/
def SigningMethod.Alg : SigningMethod → String
  | .HS256 => "HS256"
  | .HS384 => "HS384"
  | .HS512 => "HS512"
  | .RS256 => "RS256"
  | .RS384 => "RS384"
  | .RS512 => "RS512"
  | .PS256 => "PS256"
  | .PS384 => "PS384"
  | .PS512 => "PS512"
  | .ES256 => "ES256"
  | .ES384 => "ES384"
  | .ES512 => "ES512"
  | .EdDSA => "EdDSA"
  | .None => "none"

/-- All registered signing methods. -/
def signingMethods : List SigningMethod :=
  [.HS256, .HS384, .HS512, .RS256, .RS384, .RS512, .PS256, .PS384, .PS512,
   .ES256, .ES384, .ES512, .EdDSA, .None]

/-- Library `GetSigningMethod(alg)`: the registered method of that name, if any. -/
def GetSigningMethod (alg : String) : Option SigningMethod :=
  signingMethods.find? (fun m => m.Alg == alg)

/-- The hash of a method whose Go type is `*jwt.SigningMethodHMAC`; `none` for every other
method. -/
def SigningMethod.hmacHash : SigningMethod → Option Hash
  | .HS256 => some .SHA256
  | .HS384 => some .SHA384
  | .HS512 => some .SHA512
  | _ => none

/-- The Go type assertion `method.(*jwt.SigningMethodHMAC)` succeeds. -/
def SigningMethod.isHMAC (m : SigningMethod) : Bool := m.hmacHash.isSome

/-- Library `jwt.Token`. -/
structure Token where
  Raw : String
  Method : Option SigningMethod
  Header : JSONMap
  Claims : JSONMap
  Signature : String
  Valid : Bool
  deriving DecidableEq, Repr

/-- Library `jwt.Keyfunc`: the callback that hands the verification key to `Parse`. -/
abbrev Keyfunc := Token → Except String String

/-- What `jwt.Parse` returns: a token pointer and an error, either of which may be nil. -/
structure ParseResult where
  token : Option Token
  err : Option String
  deriving DecidableEq, Repr

/-- The packages the library delegates to, taken as parameters: base64url without padding
(`EncodeSegment`, `DecodeSegment`), `encoding/json` (`Marshal`, `Unmarshal`) and
`crypto/hmac` (`hmac hash key message`). -/
structure Primitives where
  EncodeSegment : String → String
  DecodeSegment : String → Option String
  Marshal : JSONMap → String
  Unmarshal : String → Option JSONMap
  hmac : Hash → String → String → String

/-- Library `jwt.NewWithClaims(method, claims)`. -/
def NewWithClaims (method : SigningMethod) (claims : JSONMap) : Token :=
  { Raw := ""
    Method := some method
    Header := [("typ", .str "JWT"), ("alg", .str method.Alg)]
    Claims := claims
    Signature := ""
    Valid := false }

/-- Library `Token.SigningString`: the two encoded JSON segments joined by a period. -/
def SigningString (p : Primitives) (t : Token) : String :=
  p.EncodeSegment (p.Marshal t.Header) ++ "." ++ p.EncodeSegment (p.Marshal t.Claims)

/-- Library `SigningMethod.Sign` for a `[]byte` key: the HMAC methods return the MAC of the
signing string, every other method rejects the key type. -/
def Sign (p : Primitives) (m : SigningMethod) (signingString key : String) :
    Except String String :=
  match m.hmacHash with
  | some h => .ok (p.hmac h key signingString)
  | none => .error "key is of invalid type"

/-- Library `Token.SignedString(key)`. -/
def SignedString (p : Primitives) (t : Token) (key : String) : Except String String :=
  match t.Method with
  | none => .error "no signing method"
  | some m =>
    match Sign p m (SigningString p t) key with
    | .error err => .error err
    | .ok sig => .ok (SigningString p t ++ "." ++ p.EncodeSegment sig)

/-- Library `SigningMethod.Verify` for a `[]byte` key, `true` standing for a nil error: the
HMAC methods recompute the MAC and compare, every other method rejects the key type. -/
def Verify (p : Primitives) (m : SigningMethod) (signingString sig key : String) : Bool :=
  match m.hmacHash with
  | some h => sig == p.hmac h key signingString
  | none => false

/-- Library `MapClaims.parseNumericDate(key)`: an absent key and the number zero are both
"no date"; a value that is not a number is an error. -/
def parseNumericDate (claims : JSONMap) (key : String) : Except String (Option Int) :=
  match claims.lookup key with
  | none => .ok none
  | some (.num n) => if n = 0 then .ok none else .ok (some n)
  | some _ => .error (key ++ " is invalid")

/-- Library `Validator.verifyExpiresAt` at the time `now`, returning the error if any: an
`exp` claim, when present, must be after `now`. -/
def verifyExpiresAt (now : Nat) (claims : JSONMap) : Option String :=
  match parseNumericDate claims "exp" with
  | .error e => some e
  | .ok none => none
  | .ok (some exp) =>
    if (now : Int) < exp * 1000000000 then none else some "token is expired"

/-- Library `Validator.verifyNotBefore` at the time `now`, returning the error if any: an
`nbf` claim, when present, must not be after `now`. -/
def verifyNotBefore (now : Nat) (claims : JSONMap) : Option String :=
  match parseNumericDate claims "nbf" with
  | .error e => some e
  | .ok none => none
  | .ok (some nbf) =>
    if (now : Int) < nbf * 1000000000 then some "token is not valid yet" else none

/-- Library `Validator.Validate` with the default options at the time `now`, returning an
error if either check fails (the library joins the errors; only whether there is one matters
to the caller). -/
def Validate (now : Nat) (claims : JSONMap) : Option String :=
  match verifyExpiresAt now claims with
  | some e => some e
  | none => verifyNotBefore now claims

/-- A token segment decoded as JSON: base64url, then `json.Unmarshal`. -/
def decodeJSONSegment (p : Primitives) (seg : String) : Option JSONMap :=
  (p.DecodeSegment seg).bind p.Unmarshal

/-- Library `Parser.ParseUnverified`: the token must have exactly three period-separated
segments, the first two must decode as JSON, and the header must name a registered signing
method. Returns the token as far as it was read, the segments, and the error if any. -/
def ParseUnverified (p : Primitives) (tokenString : String) :
    Option Token × List String × Option String :=
  let parts := strings.Split tokenString '.'
  if parts.length ≠ 3 then
    (none, parts, some "token contains an invalid number of segments")
  else
    let token : Token :=
      { Raw := tokenString, Method := none, Header := [], Claims := [], Signature := "",
        Valid := false }
    match decodeJSONSegment p (parts.getD 0 "") with
    | none => (some token, parts, some "could not decode header")
    | some header =>
      let token := { token with Header := header }
      match decodeJSONSegment p (parts.getD 1 "") with
      | none => (some token, parts, some "could not decode claim")
      | some claims =>
        let token := { token with Claims := claims }
        match header.lookup "alg" with
        | some (.str alg) =>
          match GetSigningMethod alg with
          | none => (some token, parts, some "signing method (alg) is unavailable")
          | some method => (some { token with Method := some method }, parts, none)
        | _ => (some token, parts, some "signing method (alg) is unspecified")

/-- Library `jwt.Parse(tokenString, keyFunc)` at the time `now`: read the token, decode the
signature, ask `keyFunc` for the key, verify the signature, validate the claims; only then the
token is marked valid. -/
def Parse (p : Primitives) (now : Nat) (tokenString : String) (keyFunc : Keyfunc) :
    ParseResult :=
  match ParseUnverified p tokenString with
  | (token, _, some err) => ⟨token, some err⟩
  | (none, _, none) => ⟨none, some "token is malformed"⟩
  | (some token, parts, none) =>
    match p.DecodeSegment (parts.getD 2 "") with
    | none => ⟨some token, some "could not base64 decode signature"⟩
    | some sig =>
      let token := { token with Signature := sig }
      let text := parts.getD 0 "" ++ "." ++ parts.getD 1 ""
      match keyFunc token with
      | .error err => ⟨some token, some ("error while executing keyfunc: " ++ err)⟩
      | .ok key =>
        match token.Method with
        | none => ⟨some token, some "token is unverifiable"⟩
        | some method =>
          if ¬ Verify p method text sig key then
            ⟨some token, some "signature is invalid"⟩
          else
            match Validate now token.Claims with
            | some err => ⟨some token, some err⟩
            | none => ⟨some { token with Valid := true }, none⟩

/-- The `alg` entry of the header of a token string, as `ParseUnverified` reads it: the first
period-separated segment, decoded as JSON. -/
def headerAlg (p : Primitives) (tokenString : String) : Option JSONValue :=
  (decodeJSONSegment p ((strings.Split tokenString '.').getD 0 "")).bind
    (fun header => header.lookup "alg")

/-- The base64 package carries one byte string faithfully: it decodes what it encoded, and the
encoded segment has neither a period nor a space (its alphabet is `A-Z a-z 0-9 - _`). -/
def Transports (p : Primitives) (bytes : String) : Prop :=
  p.DecodeSegment (p.EncodeSegment bytes) = some bytes
  ∧ '.' ∉ (p.EncodeSegment bytes).toList
  ∧ ' ' ∉ (p.EncodeSegment bytes).toList

instance (p : Primitives) (bytes : String) : Decidable (Transports p bytes) := by
  unfold Transports
  infer_instance

/-- The JSON package reads back one map as it wrote it. -/
def Serializes (p : Primitives) (m : JSONMap) : Prop :=
  p.Unmarshal (p.Marshal m) = some m

instance (p : Primitives) (m : JSONMap) : Decidable (Serializes p m) := by
  unfold Serializes
  infer_instance

/-- What is assumed of the JSON and base64 packages about one token, the one made by
`NewWithClaims method claims` and signed with `key`: header and claims are read back as
written, and the three segments are carried faithfully. -/
def FaithfulOn (p : Primitives) (method : SigningMethod) (claims : JSONMap) (key : String) :
    Prop :=
  Serializes p (NewWithClaims method claims).Header
  ∧ Serializes p claims
  ∧ Transports p (p.Marshal (NewWithClaims method claims).Header)
  ∧ Transports p (p.Marshal claims)
  ∧ match method.hmacHash with
    | some h => Transports p (p.hmac h key (SigningString p (NewWithClaims method claims)))
    | none => True

instance (p : Primitives) (method : SigningMethod) (claims : JSONMap) (key : String) :
    Decidable (FaithfulOn p method claims key) := by
  unfold FaithfulOn
  cases method.hmacHash <;> infer_instance

end jwt

/-! ## Token issuance (`generatetoken/token-gen.go`) -/

/-- The claim set `GenerateJWT` builds when called at the time `now`. -/
def issuedClaims (now : Nat) : JSONMap :=
  [("authorized", .bool true),
   ("user", .str "example_user"),
   ("exp", .num (time.Unix (now + time.Hour * 72)))]

/-- Source `GenerateJWT(secretKey)`, called at the time `now`. -/
def GenerateJWT (p : jwt.Primitives) (now : Nat) (secretKey : String) : Except String String :=
  let claims := issuedClaims now
  let token := jwt.NewWithClaims .HS256 claims
  match jwt.SignedString p token secretKey with
  | .error err => .error err
  | .ok tokenString => .ok tokenString

/-! ## The request pipeline (`github.com/gofiber/fiber/v2`) -/

namespace fiber

def StatusOK : Nat := 200
def StatusCreated : Nat := 201
def StatusNoContent : Nat := 204
def StatusBadRequest : Nat := 400
def StatusUnauthorized : Nat := 401
def StatusInternalServerError : Nat := 500

end fiber

/-- A value placed in a `fiber.Map` by the handlers. -/
inductive Value (User : Type) where
  | str (s : String)
  | user (u : Option User)
  | users (us : List User)
  deriving DecidableEq

/-- A terminal response: the status set on the context and the entries of the JSON body
(no entries for an empty body). -/
structure Response (User : Type) where
  status : Nat
  body : List (String × Value User)
  deriving DecidableEq

/-- What a handler does with a request: write a terminal response, or call `Next`. -/
inductive Outcome (User : Type) where
  | respond (r : Response User)
  | next
  deriving DecidableEq

/-- The handlers of the package, by name. -/
inductive HandlerName where
  | checkIfUserExistsMiddleware
  | JWTMiddleware
  | getUsers
  | getUser
  | createUser
  | updateUser
  | deleteUser
  deriving DecidableEq, Repr

/-- One entry of the trace of a run: a handler is entered, `jwt.Parse` is called on a token
string, or a method of the `UserService` is called. -/
inductive Event (User : Type) where
  | enter (h : HandlerName)
  | jwtParse (tokenString : String)
  | GetUsers
  | GetUser (id : String)
  | CreateUser (u : User)
  | UpdateUser (id : String) (u : User)
  | DeleteUser (id : String)
  deriving DecidableEq

/-- What a handler reads of `*fiber.Ctx`: the route parameters, the request headers (the
empty string for an absent one) and the outcome of parsing the body into a `User`. -/
structure Ctx (User : Type) where
  Params : String → String
  Get : String → String
  BodyParser : Except String User

/-- The state after a handler or a chain has run on a store `σ`: the store, the calls made,
and the outcome. -/
structure Run (σ User : Type) where
  store : σ
  trace : List (Event User)
  outcome : Outcome User
  deriving DecidableEq

/-- Source `ctx.Status(status).JSON(fiber.Map ...)`. -/
def JSON {User : Type} (status : Nat) (body : List (String × Value User)) : Outcome User :=
  .respond ⟨status, body⟩

/-- Source `ctx.SendStatus(status)`: the status with an empty body. -/
def SendStatus {User : Type} (status : Nat) : Outcome User :=
  .respond ⟨status, []⟩

/-- The `UserService` interface the handlers call (its declaration is not among the sources;
the methods are those the handlers use), over a store `σ`. Every method returns the store it
leaves behind together with its Go results, a nilable user and a nilable error. -/
structure UserService (σ User : Type) where
  GetUsers : σ → σ × List User × Option String
  GetUser : σ → String → σ × Option User × Option String
  CreateUser : σ → User → σ × Option User × Option String
  UpdateUser : σ → String → User → σ × Option User × Option String
  DeleteUser : σ → String → σ × Option String

/-! ## The gates (`middleware.go`) -/

section gates

variable {σ User : Type}

/-- The body of the "not found" answer of the existence gate. -/
def userNotFound : List (String × Value User) :=
  [("status", .str "fail"), ("message", .str "User not found!")]

/-- The failure envelope carrying an error text. -/
def failWith (message : String) : List (String × Value User) :=
  [("status", .str "fail"), ("message", .str message)]

/-- Source `(*UserHandler).checkIfUserExistsMiddleware`. -/
def checkIfUserExistsMiddleware (userService : UserService σ User) (s : σ) (ctx : Ctx User) :
    Run σ User :=
  let targetedUserID := ctx.Params "userID"
  if targetedUserID = "" then
    ⟨s, [], JSON fiber.StatusBadRequest userNotFound⟩
  else
    match userService.GetUser s targetedUserID with
    | (s1, searchedUser, err) =>
      match err with
      | some e =>
        ⟨s1, [.GetUser targetedUserID], JSON fiber.StatusInternalServerError (failWith e)⟩
      | none =>
        match searchedUser with
        | none => ⟨s1, [.GetUser targetedUserID], JSON fiber.StatusBadRequest userNotFound⟩
        | some _ => ⟨s1, [.GetUser targetedUserID], .next⟩

/-- The key-selection callback `JWTMiddleware` passes to `jwt.Parse`: the secret for a token
whose method has the Go type `*jwt.SigningMethodHMAC`, an error for any other. -/
def keyFunc (secret : String) : jwt.Keyfunc := fun token =>
  match token.Method with
  | some m => if m.isHMAC then .ok secret else .error "Unexpected signing method"
  | none => .error "Unexpected signing method"

/-- The condition `err != nil || token == nil || !token.Valid` of `JWTMiddleware`. -/
def verificationFailed (r : jwt.ParseResult) : Bool :=
  r.err.isSome || r.token.isNone || !(r.token.elim false (·.Valid))

/-- Source `JWTMiddleware`, over the linked `jwt.Parse` and the process environment
(`os.Getenv`). The store is not touched. -/
def JWTMiddleware (Parse : String → jwt.Keyfunc → jwt.ParseResult) (Getenv : String → String)
    (s : σ) (c : Ctx User) : Run σ User :=
  let authHeader := c.Get "Authorization"
  if authHeader = "" then
    ⟨s, [], JSON fiber.StatusUnauthorized [("error", .str "Missing Authorization header")]⟩
  else
    let tokenParts := strings.Split authHeader ' '
    if tokenParts.length ≠ 2 ∨ tokenParts.getD 0 "" ≠ "Bearer" then
      ⟨s, [], JSON fiber.StatusUnauthorized
        [("error", .str "Invalid Authorization header format")]⟩
    else
      let tokenString := tokenParts.getD 1 ""
      let secret := Getenv "JWT_SECRET"
      if secret = "" then
        ⟨s, [], JSON fiber.StatusInternalServerError
          [("error", .str "JWT secret not configured")]⟩
      else
        let r := Parse tokenString (keyFunc secret)
        if verificationFailed r then
          ⟨s, [.jwtParse tokenString], JSON fiber.StatusUnauthorized
            [("error", .str "Invalid or expired token")]⟩
        else
          ⟨s, [.jwtParse tokenString], .next⟩

/-! ## The endpoint handlers and the route table (`handler.go`) -/

/-- Source `(*UserHandler).getUsers`. -/
def getUsers (userService : UserService σ User) (s : σ) (_ctx : Ctx User) : Run σ User :=
  match userService.GetUsers s with
  | (s1, users, err) =>
    match err with
    | some e => ⟨s1, [.GetUsers], JSON fiber.StatusInternalServerError (failWith e)⟩
    | none =>
      ⟨s1, [.GetUsers], JSON fiber.StatusOK [("status", .str "success"), ("data", .users users)]⟩

/-- Source `(*UserHandler).getUser`. -/
def getUser (userService : UserService σ User) (s : σ) (ctx : Ctx User) : Run σ User :=
  let targetedUserID := ctx.Params "userID"
  match userService.GetUser s targetedUserID with
  | (s1, user, err) =>
    match err with
    | some e =>
      ⟨s1, [.GetUser targetedUserID], JSON fiber.StatusInternalServerError (failWith e)⟩
    | none =>
      ⟨s1, [.GetUser targetedUserID],
        JSON fiber.StatusOK [("status", .str "success"), ("data", .user user)]⟩

/-- Source `(*UserHandler).createUser`. -/
def createUser (userService : UserService σ User) (s : σ) (ctx : Ctx User) : Run σ User :=
  match ctx.BodyParser with
  | .error e => ⟨s, [], JSON fiber.StatusBadRequest (failWith e)⟩
  | .ok user =>
    match userService.CreateUser s user with
    | (s1, createdUser, err) =>
      match err with
      | some e => ⟨s1, [.CreateUser user], JSON fiber.StatusInternalServerError (failWith e)⟩
      | none =>
        ⟨s1, [.CreateUser user],
          JSON fiber.StatusCreated
            [("status", .str "success"),
             ("message", .str "User has been created successfully!"),
             ("data", .user createdUser)]⟩

/-- Source `(*UserHandler).updateUser`. -/
def updateUser (userService : UserService σ User) (s : σ) (ctx : Ctx User) : Run σ User :=
  let targetedUserID := ctx.Params "userID"
  match ctx.BodyParser with
  | .error e => ⟨s, [], JSON fiber.StatusBadRequest (failWith e)⟩
  | .ok user =>
    match userService.UpdateUser s targetedUserID user with
    | (s1, updatedUser, err) =>
      match err with
      | some e =>
        ⟨s1, [.UpdateUser targetedUserID user],
          JSON fiber.StatusInternalServerError (failWith e)⟩
      | none =>
        ⟨s1, [.UpdateUser targetedUserID user],
          JSON fiber.StatusOK
            [("status", .str "success"),
             ("message", .str "User has been updated successfully!"),
             ("data", .user updatedUser)]⟩

/-- Source `(*UserHandler).deleteUser`. -/
def deleteUser (userService : UserService σ User) (s : σ) (ctx : Ctx User) : Run σ User :=
  let targetedUserID := ctx.Params "userID"
  match userService.DeleteUser s targetedUserID with
  | (s1, err) =>
    match err with
    | some e =>
      ⟨s1, [.DeleteUser targetedUserID], JSON fiber.StatusInternalServerError (failWith e)⟩
    | none => ⟨s1, [.DeleteUser targetedUserID], SendStatus fiber.StatusNoContent⟩

/-- A registered handler: its name and what it does. -/
structure Handler (σ User : Type) where
  name : HandlerName
  run : σ → Ctx User → Run σ User

/-- A registered route: the HTTP method, the path below the group, and the handler chain. -/
structure Route (σ User : Type) where
  method : String
  path : String
  handlers : List (Handler σ User)

/-- The framework running a chain: every handler is entered in registration order, and the
one after it runs only when it called `Next`. A chain that runs out of handlers passes on. -/
def runChain : List (Handler σ User) → σ → Ctx User → Run σ User
  | [], s, _ => ⟨s, [], .next⟩
  | h :: rest, s, c =>
    match h.run s c with
    | ⟨s1, t1, .respond r⟩ => ⟨s1, .enter h.name :: t1, .respond r⟩
    | ⟨s1, t1, .next⟩ =>
      match runChain rest s1 c with
      | ⟨s2, t2, o⟩ => ⟨s2, .enter h.name :: t1 ++ t2, o⟩

/-- Source `NewUserHandler`: the routes in the order they are registered. -/
def NewUserHandler (Parse : String → jwt.Keyfunc → jwt.ParseResult) (Getenv : String → String)
    (userService : UserService σ User) : List (Route σ User) :=
  let createUserH : Handler σ User := ⟨.createUser, createUser userService⟩
  let getUsersH : Handler σ User := ⟨.getUsers, getUsers userService⟩
  let getUserH : Handler σ User := ⟨.getUser, getUser userService⟩
  let updateUserH : Handler σ User := ⟨.updateUser, updateUser userService⟩
  let deleteUserH : Handler σ User := ⟨.deleteUser, deleteUser userService⟩
  let existsH : Handler σ User :=
    ⟨.checkIfUserExistsMiddleware, checkIfUserExistsMiddleware userService⟩
  let jwtH : Handler σ User := ⟨.JWTMiddleware, JWTMiddleware Parse Getenv⟩
  [ ⟨"POST", "", [createUserH]⟩,
    ⟨"GET", "", [getUsersH]⟩,
    ⟨"GET", "/:userID", [jwtH, getUserH]⟩,
    ⟨"PUT", "/:userID", [existsH, jwtH, updateUserH]⟩,
    ⟨"DELETE", "/:userID", [existsH, jwtH, deleteUserH]⟩ ]

/-- The chain registered for a method and a path (none: the empty chain). -/
def handlersFor (routes : List (Route σ User)) (method path : String) :
    List (Handler σ User) :=
  match routes.find? (fun r => r.method == method && r.path == path) with
  | some r => r.handlers
  | none => []

/-- A request matched to the route `method path` and run through its chain. -/
def serve (routes : List (Route σ User)) (method path : String) (s : σ) (c : Ctx User) :
    Run σ User :=
  runChain (handlersFor routes method path) s c

end gates

/-! ## A concrete instance

A small executable instance of the parameters, on which the statements below are evaluated:
stand-ins for the JSON, base64 and HMAC packages, a process environment holding one secret, a
request, and a user service over an association list. -/

namespace Demo

/-- A checksum of a text, standing in for a hash. -/
def checksum (s : String) : Nat :=
  s.toList.foldl (fun acc c => (acc * 31 + c.toNat) % 1000003) 7

/-- The tag a stand-in MAC starts with, one per hash. -/
def hashTag : jwt.Hash → String
  | .SHA256 => "a"
  | .SHA384 => "b"
  | .SHA512 => "c"

/-- A JSON value rendered with a one-letter type tag. -/
def renderValue : JSONValue → String
  | .null => "z"
  | .bool true => "bt"
  | .bool false => "bf"
  | .num n => "n" ++ toString n
  | .str s => "s" ++ s

/-- A map rendered as `key=value;` entries. -/
def Marshal (m : JSONMap) : String :=
  String.join (m.map fun kv => kv.1 ++ "=" ++ renderValue kv.2 ++ ";")

/-- A run of decimal digits read as a number. -/
def parseDigits (ds : List Char) : Option Nat :=
  if ds ≠ [] ∧ ds.all Char.isDigit then
    some (ds.foldl (fun acc c => 10 * acc + (c.toNat - 48)) 0)
  else none

/-- The inverse of `renderValue`. -/
def parseValue : List Char → Option JSONValue
  | ['z'] => some .null
  | ['b', 't'] => some (.bool true)
  | ['b', 'f'] => some (.bool false)
  | 'n' :: '-' :: ds => (parseDigits ds).map fun n => .num (-(n : Int))
  | 'n' :: ds => (parseDigits ds).map fun n => .num (n : Int)
  | 's' :: cs => some (.str (String.mk cs))
  | _ => none

/-- One `key=value` entry read back. -/
def parseEntry (e : List Char) : Option (String × JSONValue) :=
  match e.splitOn '=' with
  | [k, v] => (parseValue v).map fun x => (String.mk k, x)
  | _ => none

/-- The inverse of `Marshal`. -/
def Unmarshal (s : String) : Option JSONMap :=
  let pieces := s.toList.splitOn ';'
  if pieces.getLast? = some [] then pieces.dropLast.mapM parseEntry else none

/-- The stand-in primitives: the transport encoding leaves a text as it is and refuses to
decode one containing a period or a space; the MAC is a tagged checksum of key and message. -/
def primitives : jwt.Primitives where
  EncodeSegment := fun s => s
  DecodeSegment := fun s => if '.' ∈ s.toList ∨ ' ' ∈ s.toList then none else some s
  Marshal := Marshal
  Unmarshal := Unmarshal
  hmac := fun h key msg => hashTag h ++ toString (checksum (key ++ ":" ++ msg))

/-- A process environment in which only `JWT_SECRET` is set. -/
def env (secret : String) : String → String :=
  fun name => if name = "JWT_SECRET" then secret else ""

/-- A request with the given `userID` route parameter and `Authorization` header, and a body
that parses to the user `body`. -/
def request (userID authorization body : String) : Ctx String where
  Params := fun name => if name = "userID" then userID else ""
  Get := fun name => if name = "Authorization" then authorization else ""
  BodyParser := .ok body

/-- A user service over an association list from ids to users; users are plain strings. -/
def service : UserService (List (String × String)) String where
  GetUsers := fun s => (s, s.map Prod.snd, none)
  GetUser := fun s id => (s, s.lookup id, none)
  CreateUser := fun s u => ((u, u) :: s, some u, none)
  UpdateUser := fun s id u => ((id, u) :: s.filter (fun e => e.1 != id), some u, none)
  DeleteUser := fun s id => (s.filter (fun e => e.1 != id), none)

/-- A store holding the single user `u1`. -/
def store : List (String × String) := [("u1", "alice")]

/-- An issuance time: 1 700 000 000.5 seconds after the epoch. -/
def issuedAt : Nat := 1700000000500000000

/-- The token `GenerateJWT` returns for `secret` at `issuedAt`, the empty string on error. -/
def issued (secret : String) : String :=
  match GenerateJWT primitives issuedAt secret with
  | .ok tokenString => tokenString
  | .error _ => ""

/-- A token signed with `method` over the claims `GenerateJWT` issues at `issuedAt`. -/
def signedWith (method : jwt.SigningMethod) (secret : String) : String :=
  match jwt.SignedString primitives (jwt.NewWithClaims method (issuedClaims issuedAt)) secret with
  | .ok tokenString => tokenString
  | .error _ => ""

/-- An unsigned token whose header names the method `none`. -/
def unsignedNone : String :=
  jwt.SigningString primitives (jwt.NewWithClaims .None (issuedClaims issuedAt)) ++ "."

end Demo

/-! ## Lemmas: splitting strings -/

/-- No piece of a split contains the separator. -/
theorem List.not_mem_of_mem_splitOn {α : Type} [DecidableEq α] (x : α) (xs : List α) :
    ∀ l ∈ xs.splitOn x, x ∉ l := by
  induction xs with
  | nil => simp [List.splitOn_nil]
  | cons a as ih =>
    intro l hl
    simp only [List.splitOn] at ih hl
    rw [List.splitOnP_cons] at hl
    by_cases h : (a == x) = true
    · rw [if_pos h] at hl
      rcases List.mem_cons.1 hl with rfl | hl
      · simp
      · exact ih l hl
    · rw [if_neg h] at hl
      cases hs : List.splitOnP (fun y => y == x) as with
      | nil => exact absurd hs (List.splitOnP_ne_nil _ _)
      | cons hd tl =>
        rw [hs] at hl ih
        simp only [List.modifyHead_cons, List.mem_cons] at hl
        rcases hl with rfl | hl
        · intro hx
          rcases List.mem_cons.1 hx with rfl | hx
          · simp at h
          · exact ih hd (List.mem_cons_self _ _) hx
        · exact ih l (List.mem_cons_of_mem _ hl)

namespace strings

/-- Two separator-free pieces joined by the separator split back into the two pieces. -/
theorem Split_two (a b : String) (sep : Char) (ha : sep ∉ a.toList) (hb : sep ∉ b.toList) :
    Split (a ++ String.singleton sep ++ b) sep = [a, b] := by
  have h : ([sep].intercalate [a.toList, b.toList]).splitOn sep = [a.toList, b.toList] :=
    List.splitOn_intercalate _ sep (by simpa using ⟨ha, hb⟩) (by simp)
  have e : (a ++ String.singleton sep ++ b).toList
      = [sep].intercalate [a.toList, b.toList] := by
    simp [List.intercalate, String.toList, String.data_append]
  rw [Split, e, h]
  simp

/-- Three separator-free pieces joined by the separator split back into the three pieces. -/
theorem Split_three (a b c : String) (sep : Char) (ha : sep ∉ a.toList)
    (hb : sep ∉ b.toList) (hc : sep ∉ c.toList) :
    Split (a ++ String.singleton sep ++ b ++ String.singleton sep ++ c) sep = [a, b, c] := by
  have h : ([sep].intercalate [a.toList, b.toList, c.toList]).splitOn sep
      = [a.toList, b.toList, c.toList] :=
    List.splitOn_intercalate _ sep (by simpa using ⟨ha, hb, hc⟩) (by simp)
  have e : (a ++ String.singleton sep ++ b ++ String.singleton sep ++ c).toList
      = [sep].intercalate [a.toList, b.toList, c.toList] := by
    simp [List.intercalate, String.toList, String.data_append]
  rw [Split, e, h]
  simp

/-- A string that splits into exactly two pieces is those pieces joined by the separator, and
neither piece contains the separator. -/
theorem Split_eq_pair (h a b : String) (sep : Char) (hs : Split h sep = [a, b]) :
    h = a ++ String.singleton sep ++ b ∧ sep ∉ a.toList ∧ sep ∉ b.toList := by
  unfold Split at hs
  have hi : [sep].intercalate (h.toList.splitOn sep) = h.toList :=
    List.intercalate_splitOn _ sep
  have hn := List.not_mem_of_mem_splitOn sep h.toList
  cases hp : h.toList.splitOn sep with
  | nil => rw [hp] at hs; simp at hs
  | cons p ps =>
    cases ps with
    | nil => rw [hp] at hs; simp at hs
    | cons q qs =>
      cases qs with
      | cons r rs => rw [hp] at hs; simp at hs
      | nil =>
        rw [hp] at hs hi hn
        simp at hs
        obtain ⟨rfl, rfl⟩ := hs
        refine ⟨?_, ?_, ?_⟩
        · apply String.ext
          have hi2 : h.data = p ++ sep :: q := by
            simpa [List.intercalate, String.toList] using hi.symm
          simp [String.data_append, hi2]
        · simpa using hn p (by simp)
        · simpa using hn q (by simp)

/-- The empty string splits into one empty piece. -/
theorem Split_empty (sep : Char) : Split "" sep = [""] := by
  simp [Split, List.splitOn_nil]

end strings

/-- The header format `JWTMiddleware` lets through, stated on the header itself: the word
`Bearer`, one space, and a token string without a space (possibly empty). -/
theorem bearer_format_iff (authHeader : String) :
    ¬ ((strings.Split authHeader ' ').length ≠ 2
        ∨ (strings.Split authHeader ' ').getD 0 "" ≠ "Bearer")
      ↔ ∃ tokenString, authHeader = "Bearer " ++ tokenString ∧ ' ' ∉ tokenString.toList := by
  constructor
  · intro h
    rw [not_or, not_not, not_not] at h
    obtain ⟨hl, hb⟩ := h
    cases hp : strings.Split authHeader ' ' with
    | nil => rw [hp] at hl; simp at hl
    | cons p ps =>
      cases ps with
      | nil => rw [hp] at hl; simp at hl
      | cons q qs =>
        cases qs with
        | cons r rs => rw [hp] at hl; simp at hl
        | nil =>
          rw [hp] at hb
          simp at hb
          subst hb
          obtain ⟨e, -, hq⟩ := strings.Split_eq_pair _ _ _ _ hp
          exact ⟨q, e, hq⟩
  · rintro ⟨tok, rfl, htok⟩
    have e : strings.Split ("Bearer " ++ tok) ' ' = ["Bearer", tok] :=
      strings.Split_two "Bearer" tok ' ' (by decide) htok
    rw [e]
    simp

/-- The pieces of a header in the bearer format. -/
theorem Split_bearer (tokenString : String) (h : ' ' ∉ tokenString.toList) :
    strings.Split ("Bearer " ++ tokenString) ' ' = ["Bearer", tokenString] :=
  strings.Split_two "Bearer" tokenString ' ' (by decide) h

/-- A header in the bearer format is not empty. -/
theorem bearer_ne_empty (tokenString : String) : "Bearer " ++ tokenString ≠ "" := by
  intro h
  have := congrArg String.length h
  simp only [String.length_append] at this
  have h7 : "Bearer ".length = 7 := by decide
  have h0 : "".length = 0 := by decide
  omega

/-- The token of a header in the bearer format is determined by the header. -/
theorem bearer_injective (a b : String) (h : "Bearer " ++ a = "Bearer " ++ b) : a = b := by
  have := congrArg String.data h
  simp only [String.data_append, List.append_cancel_left_eq] at this
  exact String.ext this

/-! ## Lemmas: the authentication gate -/

section gate_lemmas

variable {σ User : Type}

/-- Verification has not failed exactly when `Parse` returned no error and a token marked
valid. -/
theorem verificationFailed_eq_false_iff (r : jwt.ParseResult) :
    verificationFailed r = false ↔ r.err = none ∧ ∃ t, r.token = some t ∧ t.Valid = true := by
  rcases r with ⟨token, err⟩
  cases token <;> cases err <;> simp [verificationFailed, Option.elim]

/-- Verification has failed exactly when `Parse` returned an error, or no token, or a token
not marked valid. -/
theorem verificationFailed_eq_true_iff (r : jwt.ParseResult) :
    verificationFailed r = true
      ↔ r.err ≠ none ∨ r.token = none ∨ ∃ t, r.token = some t ∧ t.Valid = false := by
  rcases r with ⟨token, err⟩
  cases token <;> cases err <;> simp [verificationFailed, Option.elim]

/-- The gate on a request without an `Authorization` header. -/
theorem JWTMiddleware_missing (Parse : String → jwt.Keyfunc → jwt.ParseResult)
    (Getenv : String → String) (s : σ) (c : Ctx User) (h : c.Get "Authorization" = "") :
    JWTMiddleware Parse Getenv s c
      = ⟨s, [], JSON 401 [("error", .str "Missing Authorization header")]⟩ := by
  simp [JWTMiddleware, h, fiber.StatusUnauthorized]

/-- The gate on a header that is present and not in the bearer format. -/
theorem JWTMiddleware_malformed (Parse : String → jwt.Keyfunc → jwt.ParseResult)
    (Getenv : String → String) (s : σ) (c : Ctx User) (h : c.Get "Authorization" ≠ "")
    (hf : ¬ ∃ tokenString, c.Get "Authorization" = "Bearer " ++ tokenString
            ∧ ' ' ∉ tokenString.toList) :
    JWTMiddleware Parse Getenv s c
      = ⟨s, [], JSON 401 [("error", .str "Invalid Authorization header format")]⟩ := by
  rw [← bearer_format_iff, not_not] at hf
  simp only [JWTMiddleware, if_neg h, if_pos hf, fiber.StatusUnauthorized]

/-- The gate on a header in the bearer format: the secret is read, and only with a secret is
the token handed to `Parse`. -/
theorem JWTMiddleware_bearer (Parse : String → jwt.Keyfunc → jwt.ParseResult)
    (Getenv : String → String) (s : σ) (c : Ctx User) (tokenString : String)
    (h : c.Get "Authorization" = "Bearer " ++ tokenString) (ht : ' ' ∉ tokenString.toList) :
    JWTMiddleware Parse Getenv s c
      = if Getenv "JWT_SECRET" = "" then
          ⟨s, [], JSON 500 [("error", .str "JWT secret not configured")]⟩
        else if verificationFailed (Parse tokenString (keyFunc (Getenv "JWT_SECRET"))) then
          ⟨s, [.jwtParse tokenString], JSON 401 [("error", .str "Invalid or expired token")]⟩
        else ⟨s, [.jwtParse tokenString], .next⟩ := by
  have hne : ¬ ("Bearer " ++ tokenString = "") := bearer_ne_empty tokenString
  simp only [JWTMiddleware, h, if_neg hne, Split_bearer tokenString ht,
    fiber.StatusUnauthorized, fiber.StatusInternalServerError]
  simp

/-- The library refuses the empty token string, whatever the key callback. -/
theorem jwt.Parse_empty (p : jwt.Primitives) (now : Nat) (keyFunc : jwt.Keyfunc) :
    (jwt.Parse p now "" keyFunc).err ≠ none := by
  simp [jwt.Parse, jwt.ParseUnverified, strings.Split_empty]

end gate_lemmas

/-! ## Lemmas: the JWT library on tokens it signed -/

namespace jwt

/-- Every registered method is found under its own name. -/
theorem GetSigningMethod_Alg (m : SigningMethod) : GetSigningMethod m.Alg = some m := by
  cases m <;> decide

/-- The token string `SignedString` returns for an HMAC method. -/
theorem SignedString_hmac (p : Primitives) (m : SigningMethod) (h : Hash) (claims : JSONMap)
    (key : String) (hm : m.hmacHash = some h) :
    SignedString p (NewWithClaims m claims) key
      = .ok (SigningString p (NewWithClaims m claims) ++ "."
          ++ p.EncodeSegment (p.hmac h key (SigningString p (NewWithClaims m claims)))) := by
  simp [SignedString, Sign, NewWithClaims, hm]

/-- What `Parse` returns on a token the library signed with an HMAC method under `key`, when
the key callback hands out `key2`, on a faithful codec: the token is read back in full; it is
marked valid, and no error is returned, exactly when the two keys give the same MAC and the
claims validate at `now`. -/
theorem Parse_signed (p : Primitives) (now : Nat) (m : SigningMethod) (h : Hash)
    (claims : JSONMap) (key key2 : String) (hm : m.hmacHash = some h)
    (hf : FaithfulOn p m claims key) (tokenString : String)
    (ht : SignedString p (NewWithClaims m claims) key = .ok tokenString) :
    Parse p now tokenString (keyFunc key2)
      = if p.hmac h key (SigningString p (NewWithClaims m claims))
            = p.hmac h key2 (SigningString p (NewWithClaims m claims)) then
          match Validate now claims with
          | some err =>
            ⟨some ⟨tokenString, some m, (NewWithClaims m claims).Header, claims,
              p.hmac h key (SigningString p (NewWithClaims m claims)), false⟩, some err⟩
          | none =>
            ⟨some ⟨tokenString, some m, (NewWithClaims m claims).Header, claims,
              p.hmac h key (SigningString p (NewWithClaims m claims)), true⟩, none⟩
        else
          ⟨some ⟨tokenString, some m, (NewWithClaims m claims).Header, claims,
            p.hmac h key (SigningString p (NewWithClaims m claims)), false⟩,
            some "signature is invalid"⟩ := by
  rw [SignedString_hmac p m h claims key hm] at ht
  injection ht with ht
  subst ht
  obtain ⟨hH, hC, ⟨hdH, hpH, -⟩, ⟨hdC, hpC, -⟩, hS⟩ := hf
  rw [hm] at hS
  obtain ⟨hdS, hpS, -⟩ := hS
  have hsplit : strings.Split (SigningString p (NewWithClaims m claims) ++ "."
        ++ p.EncodeSegment (p.hmac h key (SigningString p (NewWithClaims m claims)))) '.'
      = [p.EncodeSegment (p.Marshal (NewWithClaims m claims).Header),
         p.EncodeSegment (p.Marshal claims),
         p.EncodeSegment (p.hmac h key (SigningString p (NewWithClaims m claims)))] :=
    strings.Split_three _ _ _ '.' hpH hpC hpS
  have hhdr : decodeJSONSegment p (p.EncodeSegment (p.Marshal (NewWithClaims m claims).Header))
      = some (NewWithClaims m claims).Header := by
    simp only [decodeJSONSegment, hdH, Option.some_bind]
    exact hH
  have hcl : decodeJSONSegment p (p.EncodeSegment (p.Marshal claims)) = some claims := by
    simp only [decodeJSONSegment, hdC, Option.some_bind]
    exact hC
  have halg : (NewWithClaims m claims).Header.lookup "alg" = some (.str m.Alg) := by
    simp [NewWithClaims, List.lookup]
  have hkey : keyFunc key2
      ⟨SigningString p (NewWithClaims m claims) ++ "."
        ++ p.EncodeSegment (p.hmac h key (SigningString p (NewWithClaims m claims))),
       some m, (NewWithClaims m claims).Header, claims,
       p.hmac h key (SigningString p (NewWithClaims m claims)), false⟩ = .ok key2 := by
    simp [keyFunc, SigningMethod.isHMAC, hm]
  have htext : p.EncodeSegment (p.Marshal (NewWithClaims m claims).Header) ++ "."
      ++ p.EncodeSegment (p.Marshal claims) = SigningString p (NewWithClaims m claims) := rfl
  have hpu : ParseUnverified p (SigningString p (NewWithClaims m claims) ++ "."
        ++ p.EncodeSegment (p.hmac h key (SigningString p (NewWithClaims m claims))))
      = (some ⟨SigningString p (NewWithClaims m claims) ++ "."
            ++ p.EncodeSegment (p.hmac h key (SigningString p (NewWithClaims m claims))),
          some m, (NewWithClaims m claims).Header, claims, "", false⟩,
         [p.EncodeSegment (p.Marshal (NewWithClaims m claims).Header),
          p.EncodeSegment (p.Marshal claims),
          p.EncodeSegment (p.hmac h key (SigningString p (NewWithClaims m claims)))],
         none) := by
    simp [ParseUnverified, hsplit, hhdr, hcl, halg, GetSigningMethod_Alg]
  simp only [Parse, hpu, List.getD_cons_zero, List.getD_cons_succ, hdS, hkey, htext, Verify, hm]
  by_cases he : p.hmac h key (SigningString p (NewWithClaims m claims))
      = p.hmac h key2 (SigningString p (NewWithClaims m claims))
  · rw [if_pos he]
    cases hv : Validate now claims <;> simp [hv, ← he]
  · simp [he]

/-- The library refuses every token whose header names a method that is not an HMAC method,
when the key callback is the one of `JWTMiddleware`: if the token can be read at all, the
callback returns its error. -/
theorem Parse_rejects_non_hmac (p : Primitives) (now : Nat) (tokenString secret : String)
    (m : SigningMethod) (ha : headerAlg p tokenString = some (.str m.Alg))
    (hm : m.isHMAC = false) :
    (Parse p now tokenString (keyFunc secret)).err ≠ none := by
  unfold headerAlg at ha
  cases hd : decodeJSONSegment p ((strings.Split tokenString '.').getD 0 "") with
  | none => rw [hd] at ha; simp at ha
  | some header =>
    rw [hd] at ha
    simp only [Option.some_bind] at ha
    by_cases hl : (strings.Split tokenString '.').length ≠ 3
    · simp only [Parse, ParseUnverified, if_pos hl]
      simp
    · cases hc : decodeJSONSegment p ((strings.Split tokenString '.').getD 1 "") with
      | none =>
        simp only [Parse, ParseUnverified, if_neg hl, hd, hc]
        simp
      | some claims =>
        cases hs : p.DecodeSegment ((strings.Split tokenString '.').getD 2 "") with
        | none =>
          simp only [Parse, ParseUnverified, if_neg hl, hd, hc, ha, GetSigningMethod_Alg, hs]
          simp
        | some sig =>
          simp only [Parse, ParseUnverified, if_neg hl, hd, hc, ha, GetSigningMethod_Alg, hs,
            keyFunc, hm]
          simp

/-- The expiry `GenerateJWT` computes: the whole seconds of the issuance time plus 259200. -/
theorem Unix_add_72_hours (t : Nat) : time.Unix (t + time.Hour * 72) = time.Unix t + 259200 := by
  simp only [time.Unix, time.Hour]
  omega

/-- The `exp` entry of the issued claims. -/
theorem lookup_exp_issuedClaims (t : Nat) :
    (issuedClaims t).lookup "exp" = some (.num (time.Unix (t + time.Hour * 72))) := by
  simp only [issuedClaims, List.lookup]
  rfl

/-- The issued claims have no `nbf` entry. -/
theorem lookup_nbf_issuedClaims (t : Nat) : (issuedClaims t).lookup "nbf" = none := by
  simp only [issuedClaims, List.lookup]
  rfl

/-- The numeric dates of the issued claims: the expiry, and no not-before date. -/
theorem parseNumericDate_issuedClaims (t : Nat) :
    parseNumericDate (issuedClaims t) "exp" = .ok (some (time.Unix t + 259200))
    ∧ parseNumericDate (issuedClaims t) "nbf" = .ok none := by
  have h0 : ¬ (time.Unix t + 259200 = 0) := by
    simp only [time.Unix]
    omega
  constructor
  · simp only [parseNumericDate, lookup_exp_issuedClaims, Unix_add_72_hours, if_neg h0]
  · simp only [parseNumericDate, lookup_nbf_issuedClaims]

/-- Claims with an expiry and no not-before date validate before the expiry. -/
theorem Validate_before (now : Nat) (claims : JSONMap) (exp : Int)
    (hexp : parseNumericDate claims "exp" = .ok (some exp))
    (hnbf : parseNumericDate claims "nbf" = .ok none)
    (h : (now : Int) < exp * 1000000000) :
    Validate now claims = none := by
  simp only [Validate, verifyExpiresAt, verifyNotBefore, hexp, hnbf, if_pos h]

/-- Claims with an expiry do not validate at or after the expiry. -/
theorem Validate_after (now : Nat) (claims : JSONMap) (exp : Int)
    (hexp : parseNumericDate claims "exp" = .ok (some exp))
    (h : ¬ (now : Int) < exp * 1000000000) :
    Validate now claims = some "token is expired" := by
  simp only [Validate, verifyExpiresAt, hexp, if_neg h]

/-- The issued claims validate before their expiry. -/
theorem Validate_issuedClaims_before (now t : Nat)
    (h : (now : Int) < (time.Unix t + 259200) * 1000000000) :
    Validate now (issuedClaims t) = none :=
  Validate_before now _ _ (parseNumericDate_issuedClaims t).1
    (parseNumericDate_issuedClaims t).2 h

/-- The issued claims do not validate at or after their expiry. -/
theorem Validate_issuedClaims_after (now t : Nat)
    (h : ¬ (now : Int) < (time.Unix t + 259200) * 1000000000) :
    Validate now (issuedClaims t) = some "token is expired" :=
  Validate_after now _ _ (parseNumericDate_issuedClaims t).1 h

end jwt

/-! ## Lemmas: chains and routes -/

section chain_lemmas

variable {σ User : Type}

/-- A chain stops at a handler that writes a response. -/
theorem runChain_respond (h : Handler σ User) (rest : List (Handler σ User)) (s s1 : σ)
    (c : Ctx User) (t1 : List (Event User)) (r : Response User)
    (hr : h.run s c = ⟨s1, t1, .respond r⟩) :
    runChain (h :: rest) s c = ⟨s1, .enter h.name :: t1, .respond r⟩ := by
  simp only [runChain, hr]

/-- A chain goes on after a handler that calls `Next`. -/
theorem runChain_next (h : Handler σ User) (rest : List (Handler σ User)) (s s1 : σ)
    (c : Ctx User) (t1 : List (Event User)) (hr : h.run s c = ⟨s1, t1, .next⟩) :
    runChain (h :: rest) s c
      = ⟨(runChain rest s1 c).store, .enter h.name :: t1 ++ (runChain rest s1 c).trace,
          (runChain rest s1 c).outcome⟩ := by
  simp only [runChain, hr]

/-- The chain registered for `GET /:userID`. -/
theorem handlersFor_GET (Parse : String → jwt.Keyfunc → jwt.ParseResult)
    (Getenv : String → String) (userService : UserService σ User) :
    handlersFor (NewUserHandler Parse Getenv userService) "GET" "/:userID"
      = [⟨.JWTMiddleware, JWTMiddleware Parse Getenv⟩, ⟨.getUser, getUser userService⟩] := by
  rfl

/-- The chain registered for `PUT /:userID`. -/
theorem handlersFor_PUT (Parse : String → jwt.Keyfunc → jwt.ParseResult)
    (Getenv : String → String) (userService : UserService σ User) :
    handlersFor (NewUserHandler Parse Getenv userService) "PUT" "/:userID"
      = [⟨.checkIfUserExistsMiddleware, checkIfUserExistsMiddleware userService⟩,
         ⟨.JWTMiddleware, JWTMiddleware Parse Getenv⟩,
         ⟨.updateUser, updateUser userService⟩] := by
  rfl

/-- The chain registered for `DELETE /:userID`. -/
theorem handlersFor_DELETE (Parse : String → jwt.Keyfunc → jwt.ParseResult)
    (Getenv : String → String) (userService : UserService σ User) :
    handlersFor (NewUserHandler Parse Getenv userService) "DELETE" "/:userID"
      = [⟨.checkIfUserExistsMiddleware, checkIfUserExistsMiddleware userService⟩,
         ⟨.JWTMiddleware, JWTMiddleware Parse Getenv⟩,
         ⟨.deleteUser, deleteUser userService⟩] := by
  rfl

/-- The existence gate on a lookup that finds no user and reports no error: 400, and the
trace holds at most the lookup. -/
theorem checkIfUserExistsMiddleware_absent (userService : UserService σ User) (s : σ)
    (ctx : Ctx User)
    (h : (userService.GetUser s (ctx.Params "userID")).2 = (none, none)) :
    checkIfUserExistsMiddleware userService s ctx
      = ⟨if ctx.Params "userID" = "" then s
          else (userService.GetUser s (ctx.Params "userID")).1,
         if ctx.Params "userID" = "" then [] else [.GetUser (ctx.Params "userID")],
         .respond ⟨400, [("status", .str "fail"), ("message", .str "User not found!")]⟩⟩ := by
  by_cases h0 : ctx.Params "userID" = ""
  · simp [checkIfUserExistsMiddleware, h0, JSON, userNotFound, fiber.StatusBadRequest]
  · rcases hg : userService.GetUser s (ctx.Params "userID") with ⟨s1, user, err⟩
    rw [hg] at h
    simp only [Prod.mk.injEq] at h
    obtain ⟨rfl, rfl⟩ := h
    simp [checkIfUserExistsMiddleware, h0, hg, JSON, userNotFound, fiber.StatusBadRequest]

/-- The existence gate on a non-empty id for which the lookup returns a user and no error:
it calls `Next`. -/
theorem checkIfUserExistsMiddleware_found (userService : UserService σ User) (s s1 : σ)
    (ctx : Ctx User) (user : User) (hid : ctx.Params "userID" ≠ "")
    (hget : userService.GetUser s (ctx.Params "userID") = (s1, some user, none)) :
    checkIfUserExistsMiddleware userService s ctx
      = ⟨s1, [.GetUser (ctx.Params "userID")], .next⟩ := by
  simp [checkIfUserExistsMiddleware, hid, hget]

end chain_lemmas

/-! ## Lemmas: issued tokens at the gate -/

section issued_lemmas

variable {σ User : Type}

/-- A token the library signed on a faithful codec contains no space. -/
theorem jwt.SignedString_no_space (p : jwt.Primitives) (m : jwt.SigningMethod) (h : jwt.Hash)
    (claims : JSONMap) (key : String) (hm : m.hmacHash = some h)
    (hf : jwt.FaithfulOn p m claims key) (tokenString : String)
    (ht : jwt.SignedString p (jwt.NewWithClaims m claims) key = .ok tokenString) :
    ' ' ∉ tokenString.toList := by
  rw [jwt.SignedString_hmac p m h claims key hm] at ht
  injection ht with ht
  subst ht
  obtain ⟨-, -, ⟨-, -, hsH⟩, ⟨-, -, hsC⟩, hS⟩ := hf
  rw [hm] at hS
  obtain ⟨-, -, hsS⟩ := hS
  have hdot : ' ' ∉ ".".toList := by decide
  simp only [jwt.SigningString, String.toList, String.data_append, List.mem_append, not_or]
  simp only [String.toList] at hsH hsC hsS hdot
  exact ⟨⟨⟨⟨hsH, hdot⟩, hsC⟩, hdot⟩, hsS⟩

/-- `GenerateJWT` returns what the library signs: the issued claims under HS256. -/
theorem GenerateJWT_eq (p : jwt.Primitives) (t : Nat) (secretKey : String) :
    GenerateJWT p t secretKey
      = jwt.SignedString p (jwt.NewWithClaims .HS256 (issuedClaims t)) secretKey := by
  show (match jwt.SignedString p (jwt.NewWithClaims .HS256 (issuedClaims t)) secretKey with
    | Except.error err => (Except.error err : Except String String)
    | Except.ok tokenString => Except.ok tokenString) = _
  generalize jwt.SignedString p (jwt.NewWithClaims .HS256 (issuedClaims t)) secretKey = r
  cases r <;> rfl

/-- The issued claims, with the expiry written out. -/
theorem issuedClaims_eq (t : Nat) :
    issuedClaims t
      = [("authorized", .bool true), ("user", .str "example_user"),
         ("exp", .num (time.Unix t + 259200))] := by
  simp only [issuedClaims, jwt.Unix_add_72_hours]

/-- The gate on a token the library signed with an HMAC method under `key`, served with a
non-empty secret on a faithful codec: forwarded when the secret gives the same MAC as `key`
and the claims validate, answered 401 otherwise. -/
theorem JWTMiddleware_signed (p : jwt.Primitives) (now : Nat) (Getenv : String → String)
    (m : jwt.SigningMethod) (h : jwt.Hash) (claims : JSONMap) (key : String)
    (hm : m.hmacHash = some h) (hf : jwt.FaithfulOn p m claims key) (tokenString : String)
    (ht : jwt.SignedString p (jwt.NewWithClaims m claims) key = .ok tokenString)
    (hs : Getenv "JWT_SECRET" ≠ "") (s : σ) (c : Ctx User)
    (hauth : c.Get "Authorization" = "Bearer " ++ tokenString) :
    JWTMiddleware (jwt.Parse p now) Getenv s c
      = if p.hmac h key (jwt.SigningString p (jwt.NewWithClaims m claims))
            = p.hmac h (Getenv "JWT_SECRET") (jwt.SigningString p (jwt.NewWithClaims m claims))
          ∧ jwt.Validate now claims = none then
          ⟨s, [.jwtParse tokenString], .next⟩
        else
          ⟨s, [.jwtParse tokenString],
            .respond ⟨401, [("error", .str "Invalid or expired token")]⟩⟩ := by
  have hsp := jwt.SignedString_no_space p m h claims key hm hf tokenString ht
  rw [JWTMiddleware_bearer (jwt.Parse p now) Getenv s c tokenString hauth hsp, if_neg hs,
    jwt.Parse_signed p now m h claims key (Getenv "JWT_SECRET") hm hf tokenString ht]
  by_cases he : p.hmac h key (jwt.SigningString p (jwt.NewWithClaims m claims))
      = p.hmac h (Getenv "JWT_SECRET") (jwt.SigningString p (jwt.NewWithClaims m claims))
  · cases hv : jwt.Validate now claims with
    | none => simp [he, verificationFailed, JSON]
    | some e => simp [he, verificationFailed, JSON]
  · simp [he, verificationFailed, JSON]

end issued_lemmas

/-! ## The claims -/

set_option maxRecDepth 100000

section claims

variable {σ User : Type}

/-- C1. `JWTMiddleware` decides in a fixed order, for every request, every environment and
every `jwt.Parse`: (1) no `Authorization` header gives 401 "Missing Authorization header",
whatever the secret; (2) a header in the bearer format with an unset secret gives 500
"JWT secret not configured" and `Parse` is not called; (3) with a secret, a failed verification
gives 401; (4) otherwise `Next` is called. `Next` is called if and only if the header is in the
bearer format, the secret is not empty and verification succeeds; every other outcome is a
terminal 401 or 500. With the library's `Parse` the token of a forwarded request is moreover
not empty. The store is never touched. -/
theorem JWTMiddleware_decision_procedure (Parse : String → jwt.Keyfunc → jwt.ParseResult)
    (Getenv : String → String) (s : σ) (c : Ctx User) :
    (c.Get "Authorization" = "" →
      JWTMiddleware Parse Getenv s c
        = ⟨s, [], .respond ⟨401, [("error", .str "Missing Authorization header")]⟩⟩)
    ∧ (∀ tokenString, c.Get "Authorization" = "Bearer " ++ tokenString →
        ' ' ∉ tokenString.toList → Getenv "JWT_SECRET" = "" →
        JWTMiddleware Parse Getenv s c
          = ⟨s, [], .respond ⟨500, [("error", .str "JWT secret not configured")]⟩⟩)
    ∧ (∀ tokenString, c.Get "Authorization" = "Bearer " ++ tokenString →
        ' ' ∉ tokenString.toList → Getenv "JWT_SECRET" ≠ "" →
        verificationFailed (Parse tokenString (keyFunc (Getenv "JWT_SECRET"))) = true →
        JWTMiddleware Parse Getenv s c
          = ⟨s, [.jwtParse tokenString],
              .respond ⟨401, [("error", .str "Invalid or expired token")]⟩⟩)
    ∧ (∀ tokenString, c.Get "Authorization" = "Bearer " ++ tokenString →
        ' ' ∉ tokenString.toList → Getenv "JWT_SECRET" ≠ "" →
        verificationFailed (Parse tokenString (keyFunc (Getenv "JWT_SECRET"))) = false →
        JWTMiddleware Parse Getenv s c = ⟨s, [.jwtParse tokenString], .next⟩)
    ∧ ((JWTMiddleware Parse Getenv s c).outcome = .next ↔
        ∃ tokenString, c.Get "Authorization" = "Bearer " ++ tokenString
          ∧ ' ' ∉ tokenString.toList ∧ Getenv "JWT_SECRET" ≠ ""
          ∧ ∃ token, (Parse tokenString (keyFunc (Getenv "JWT_SECRET"))).token = some token
              ∧ token.Valid = true
              ∧ (Parse tokenString (keyFunc (Getenv "JWT_SECRET"))).err = none)
    ∧ ((JWTMiddleware Parse Getenv s c).outcome ≠ .next →
        ∃ body, (JWTMiddleware Parse Getenv s c).outcome = .respond ⟨401, body⟩
          ∨ (JWTMiddleware Parse Getenv s c).outcome = .respond ⟨500, body⟩)
    ∧ (∀ (p : jwt.Primitives) (now : Nat),
        (JWTMiddleware (jwt.Parse p now) Getenv s c).outcome = .next →
        ∃ tokenString, tokenString ≠ "" ∧ c.Get "Authorization" = "Bearer " ++ tokenString)
    ∧ (JWTMiddleware Parse Getenv s c).store = s := by
  have key : ∀ (P : String → jwt.Keyfunc → jwt.ParseResult),
      (JWTMiddleware P Getenv s c).outcome = .next →
      ∃ tokenString, c.Get "Authorization" = "Bearer " ++ tokenString
        ∧ ' ' ∉ tokenString.toList ∧ Getenv "JWT_SECRET" ≠ ""
        ∧ verificationFailed (P tokenString (keyFunc (Getenv "JWT_SECRET"))) = false := by
    intro P hn
    by_cases h0 : c.Get "Authorization" = ""
    · rw [JWTMiddleware_missing P Getenv s c h0] at hn
      simp [JSON] at hn
    · by_cases hf : ∃ tokenString, c.Get "Authorization" = "Bearer " ++ tokenString
          ∧ ' ' ∉ tokenString.toList
      · obtain ⟨tok, htok, hsp⟩ := hf
        refine ⟨tok, htok, hsp, ?_⟩
        rw [JWTMiddleware_bearer P Getenv s c tok htok hsp] at hn
        by_cases hs : Getenv "JWT_SECRET" = ""
        · rw [if_pos hs] at hn
          simp [JSON] at hn
        · rw [if_neg hs] at hn
          refine ⟨hs, ?_⟩
          cases hv : verificationFailed (P tok (keyFunc (Getenv "JWT_SECRET")))
          · rfl
          · rw [hv] at hn
            simp [JSON] at hn
      · rw [JWTMiddleware_malformed P Getenv s c h0 hf] at hn
        simp [JSON] at hn
  refine ⟨?_, ?_, ?_, ?_, ?_, ?_, ?_, ?_⟩
  · intro h
    rw [JWTMiddleware_missing Parse Getenv s c h]
    rfl
  · intro tok h ht hs
    rw [JWTMiddleware_bearer Parse Getenv s c tok h ht, if_pos hs]
    rfl
  · intro tok h ht hs hv
    rw [JWTMiddleware_bearer Parse Getenv s c tok h ht, if_neg hs, hv]
    rfl
  · intro tok h ht hs hv
    rw [JWTMiddleware_bearer Parse Getenv s c tok h ht, if_neg hs, hv]
    rfl
  · constructor
    · intro hn
      obtain ⟨tok, h, ht, hs, hv⟩ := key Parse hn
      rw [verificationFailed_eq_false_iff] at hv
      obtain ⟨he, t, htk, hvalid⟩ := hv
      exact ⟨tok, h, ht, hs, t, htk, hvalid, he⟩
    · rintro ⟨tok, h, ht, hs, t, htk, hvalid, he⟩
      have hv : verificationFailed (Parse tok (keyFunc (Getenv "JWT_SECRET"))) = false :=
        (verificationFailed_eq_false_iff _).2 ⟨he, t, htk, hvalid⟩
      rw [JWTMiddleware_bearer Parse Getenv s c tok h ht, if_neg hs, hv]
      rfl
  · intro hn
    by_cases h0 : c.Get "Authorization" = ""
    · rw [JWTMiddleware_missing Parse Getenv s c h0]
      exact ⟨_, Or.inl rfl⟩
    · by_cases hf : ∃ tokenString, c.Get "Authorization" = "Bearer " ++ tokenString
          ∧ ' ' ∉ tokenString.toList
      · obtain ⟨tok, htok, hsp⟩ := hf
        rw [JWTMiddleware_bearer Parse Getenv s c tok htok hsp] at hn ⊢
        by_cases hs : Getenv "JWT_SECRET" = ""
        · rw [if_pos hs]
          exact ⟨_, Or.inr rfl⟩
        · rw [if_neg hs] at hn ⊢
          cases hv : verificationFailed (Parse tok (keyFunc (Getenv "JWT_SECRET")))
          · rw [hv] at hn
            simp at hn
          · exact ⟨_, Or.inl rfl⟩
      · rw [JWTMiddleware_malformed Parse Getenv s c h0 hf]
        exact ⟨_, Or.inl rfl⟩
  · intro p now hn
    obtain ⟨tok, h, -, -, hv⟩ := key (jwt.Parse p now) hn
    refine ⟨tok, ?_, h⟩
    rintro rfl
    rw [verificationFailed_eq_false_iff] at hv
    exact jwt.Parse_empty p now _ hv.1
  · by_cases h0 : c.Get "Authorization" = ""
    · rw [JWTMiddleware_missing Parse Getenv s c h0]
    · by_cases hf : ∃ tokenString, c.Get "Authorization" = "Bearer " ++ tokenString
          ∧ ' ' ∉ tokenString.toList
      · obtain ⟨tok, htok, hsp⟩ := hf
        rw [JWTMiddleware_bearer Parse Getenv s c tok htok hsp]
        split_ifs <;> rfl
      · rw [JWTMiddleware_malformed Parse Getenv s c h0 hf]

/-- C1, evaluated: with the secret `s3cret`, the token issued for it and presented half a
second later is forwarded; the same request without the header, with an unset secret, and
with a token signed by another secret gets the three terminal answers. -/
theorem JWTMiddleware_decision_procedure_witness :
    JWTMiddleware (jwt.Parse Demo.primitives (Demo.issuedAt + 500000000)) (Demo.env "s3cret")
        Demo.store (Demo.request "u1" ("Bearer " ++ Demo.issued "s3cret") "bob")
      = ⟨Demo.store, [.jwtParse (Demo.issued "s3cret")], .next⟩
    ∧ JWTMiddleware (jwt.Parse Demo.primitives (Demo.issuedAt + 500000000)) (Demo.env "")
        Demo.store (Demo.request "u1" "" "bob")
      = ⟨Demo.store, [], .respond ⟨401, [("error", .str "Missing Authorization header")]⟩⟩
    ∧ JWTMiddleware (jwt.Parse Demo.primitives (Demo.issuedAt + 500000000)) (Demo.env "")
        Demo.store (Demo.request "u1" ("Bearer " ++ Demo.issued "s3cret") "bob")
      = ⟨Demo.store, [], .respond ⟨500, [("error", .str "JWT secret not configured")]⟩⟩
    ∧ JWTMiddleware (jwt.Parse Demo.primitives (Demo.issuedAt + 500000000)) (Demo.env "s3cret")
        Demo.store (Demo.request "u1" ("Bearer " ++ Demo.issued "other") "bob")
      = ⟨Demo.store, [.jwtParse (Demo.issued "other")],
          .respond ⟨401, [("error", .str "Invalid or expired token")]⟩⟩ :=
  ⟨(JWTMiddleware_decision_procedure _ _ _ _).2.2.2.1 (Demo.issued "s3cret") rfl
      (by decide) (by decide) (by decide),
    (JWTMiddleware_decision_procedure _ _ _ _).1 rfl,
    (JWTMiddleware_decision_procedure _ _ _ _).2.1 (Demo.issued "s3cret") rfl
      (by decide) rfl,
    (JWTMiddleware_decision_procedure _ _ _ _).2.2.1 (Demo.issued "other") rfl
      (by decide) (by decide) (by decide)⟩

/-- C2, as stated, fails at the header `Bearer` followed by one space: the header is not
empty and is not `Bearer`, a space and a non-empty token, yet it passes the format check with
the empty token, which is handed to `jwt.Parse`; the answer is the verification failure, not
the format error. -/
theorem JWTMiddleware_bearer_space_passes_format :
    (Demo.request "u1" "Bearer " "").Get "Authorization" ≠ ""
    ∧ (¬ ∃ tokenString, (Demo.request "u1" "Bearer " "").Get "Authorization"
          = "Bearer " ++ tokenString ∧ tokenString ≠ "" ∧ ' ' ∉ tokenString.toList)
    ∧ JWTMiddleware (jwt.Parse Demo.primitives Demo.issuedAt) (Demo.env "s3cret") Demo.store
          (Demo.request "u1" "Bearer " "")
        = ⟨Demo.store, [.jwtParse ""],
            .respond ⟨401, [("error", .str "Invalid or expired token")]⟩⟩
    ∧ JWTMiddleware (jwt.Parse Demo.primitives Demo.issuedAt) (Demo.env "s3cret") Demo.store
          (Demo.request "u1" "Bearer " "")
        ≠ ⟨Demo.store, [],
            .respond ⟨401, [("error", .str "Invalid Authorization header format")]⟩⟩ := by
  refine ⟨by decide, ?_, by decide, by decide⟩
  rintro ⟨tok, h, hne, -⟩
  have h2 : "Bearer " ++ "" = "Bearer " ++ tok := h
  exact hne (bearer_injective _ _ h2).symm

/-- C2, amended. A header that is present and is not the word `Bearer`, one space and a token
string without a space (the token string may be empty) is answered 401 "Invalid Authorization
header format", without `jwt.Parse` being called and without `Next`; and these are the only
headers answered so. -/
theorem JWTMiddleware_format_gate (Parse : String → jwt.Keyfunc → jwt.ParseResult)
    (Getenv : String → String) (s : σ) (c : Ctx User) :
    (c.Get "Authorization" ≠ "" →
      (¬ ∃ tokenString, c.Get "Authorization" = "Bearer " ++ tokenString
          ∧ ' ' ∉ tokenString.toList) →
      JWTMiddleware Parse Getenv s c
        = ⟨s, [], .respond ⟨401, [("error", .str "Invalid Authorization header format")]⟩⟩)
    ∧ ((JWTMiddleware Parse Getenv s c).outcome
          = .respond ⟨401, [("error", .str "Invalid Authorization header format")]⟩ →
        c.Get "Authorization" ≠ ""
        ∧ ¬ ∃ tokenString, c.Get "Authorization" = "Bearer " ++ tokenString
            ∧ ' ' ∉ tokenString.toList) := by
  constructor
  · intro h0 hf
    rw [JWTMiddleware_malformed Parse Getenv s c h0 hf]
    rfl
  · intro ho
    constructor
    · intro h0
      rw [JWTMiddleware_missing Parse Getenv s c h0] at ho
      simp [JSON] at ho
    · rintro ⟨tok, htok, hsp⟩
      rw [JWTMiddleware_bearer Parse Getenv s c tok htok hsp] at ho
      split_ifs at ho <;> simp [JSON] at ho

/-- C2, amended, evaluated on the headers `Basic abc`, `Bearer`, `Bearer  x` (two spaces) and
`Bearer a b`. -/
theorem JWTMiddleware_format_gate_witness :
    (∀ h ∈ ["Basic abc", "Bearer", "Bearer  x", "Bearer a b"],
      JWTMiddleware (jwt.Parse Demo.primitives Demo.issuedAt) (Demo.env "s3cret") Demo.store
          (Demo.request "u1" h "")
        = ⟨Demo.store, [],
            .respond ⟨401, [("error", .str "Invalid Authorization header format")]⟩⟩) := by
  intro h hmem
  refine (JWTMiddleware_format_gate _ _ _ _).1 ?_ ?_
  · revert h; decide
  · rw [← bearer_format_iff]
    revert h; decide

/-- C6. Two requests whose headers are in the bearer format, each served with a non-empty
secret, and whose tokens both fail verification, for whatever reason (`Parse` returned an
error, or no token, or a token not marked valid), get the same response: 401 with the body
"Invalid or expired token"; neither is forwarded. -/
theorem JWTMiddleware_failures_indistinguishable
    (Parse₁ Parse₂ : String → jwt.Keyfunc → jwt.ParseResult) (Getenv₁ Getenv₂ : String → String)
    (s₁ s₂ : σ) (c₁ c₂ : Ctx User) (token₁ token₂ : String)
    (h₁ : c₁.Get "Authorization" = "Bearer " ++ token₁) (hs₁ : ' ' ∉ token₁.toList)
    (h₂ : c₂.Get "Authorization" = "Bearer " ++ token₂) (hs₂ : ' ' ∉ token₂.toList)
    (hk₁ : Getenv₁ "JWT_SECRET" ≠ "") (hk₂ : Getenv₂ "JWT_SECRET" ≠ "")
    (hf₁ : (Parse₁ token₁ (keyFunc (Getenv₁ "JWT_SECRET"))).err ≠ none
      ∨ (Parse₁ token₁ (keyFunc (Getenv₁ "JWT_SECRET"))).token = none
      ∨ ∃ t, (Parse₁ token₁ (keyFunc (Getenv₁ "JWT_SECRET"))).token = some t ∧ t.Valid = false)
    (hf₂ : (Parse₂ token₂ (keyFunc (Getenv₂ "JWT_SECRET"))).err ≠ none
      ∨ (Parse₂ token₂ (keyFunc (Getenv₂ "JWT_SECRET"))).token = none
      ∨ ∃ t, (Parse₂ token₂ (keyFunc (Getenv₂ "JWT_SECRET"))).token = some t
          ∧ t.Valid = false) :
    (JWTMiddleware Parse₁ Getenv₁ s₁ c₁).outcome = (JWTMiddleware Parse₂ Getenv₂ s₂ c₂).outcome
    ∧ (JWTMiddleware Parse₁ Getenv₁ s₁ c₁).outcome
        = .respond ⟨401, [("error", .str "Invalid or expired token")]⟩
    ∧ (JWTMiddleware Parse₂ Getenv₂ s₂ c₂).outcome
        = .respond ⟨401, [("error", .str "Invalid or expired token")]⟩ := by
  rw [← verificationFailed_eq_true_iff] at hf₁ hf₂
  rw [JWTMiddleware_bearer Parse₁ Getenv₁ s₁ c₁ token₁ h₁ hs₁, if_neg hk₁, hf₁,
    JWTMiddleware_bearer Parse₂ Getenv₂ s₂ c₂ token₂ h₂ hs₂, if_neg hk₂, hf₂]
  exact ⟨rfl, rfl, rfl⟩

/-- C6, evaluated: a token signed with another secret, presented in time, and an unsigned
token naming the method `none`, presented three days later, get the same answer. -/
theorem JWTMiddleware_failures_indistinguishable_witness :
    (JWTMiddleware (jwt.Parse Demo.primitives (Demo.issuedAt + 1)) (Demo.env "s3cret")
        Demo.store (Demo.request "u1" ("Bearer " ++ Demo.issued "other") "")).outcome
      = (JWTMiddleware (jwt.Parse Demo.primitives (Demo.issuedAt + time.Hour * 72))
          (Demo.env "s3cret") Demo.store
          (Demo.request "u2" ("Bearer " ++ Demo.unsignedNone) "")).outcome :=
  (JWTMiddleware_failures_indistinguishable
    (jwt.Parse Demo.primitives (Demo.issuedAt + 1))
    (jwt.Parse Demo.primitives (Demo.issuedAt + time.Hour * 72))
    (Demo.env "s3cret") (Demo.env "s3cret") Demo.store Demo.store
    (Demo.request "u1" ("Bearer " ++ Demo.issued "other") "")
    (Demo.request "u2" ("Bearer " ++ Demo.unsignedNone) "")
    (Demo.issued "other") Demo.unsignedNone rfl (by decide) rfl (by decide)
    (by decide) (by decide) (Or.inl (by decide)) (Or.inl (by decide))).1

/-- C7. `checkIfUserExistsMiddleware` splits into four cases, for every request and every
service: (a) an empty `userID` gives 400 "User not found!" and `GetUser` is not called;
(b) an error from `GetUser` gives 500 with the error text; (c) no error and no user gives 400
"User not found!"; (d) no error and a user calls `Next`. `Next` is called in case (d) only. -/
theorem checkIfUserExistsMiddleware_cases (userService : UserService σ User) (s : σ)
    (ctx : Ctx User) :
    (ctx.Params "userID" = "" →
      checkIfUserExistsMiddleware userService s ctx
        = ⟨s, [], .respond ⟨400, [("status", .str "fail"),
            ("message", .str "User not found!")]⟩⟩)
    ∧ (∀ s1 user e, ctx.Params "userID" ≠ "" →
        userService.GetUser s (ctx.Params "userID") = (s1, user, some e) →
        checkIfUserExistsMiddleware userService s ctx
          = ⟨s1, [.GetUser (ctx.Params "userID")],
              .respond ⟨500, [("status", .str "fail"), ("message", .str e)]⟩⟩)
    ∧ (∀ s1, ctx.Params "userID" ≠ "" →
        userService.GetUser s (ctx.Params "userID") = (s1, none, none) →
        checkIfUserExistsMiddleware userService s ctx
          = ⟨s1, [.GetUser (ctx.Params "userID")],
              .respond ⟨400, [("status", .str "fail"), ("message", .str "User not found!")]⟩⟩)
    ∧ (∀ s1 user, ctx.Params "userID" ≠ "" →
        userService.GetUser s (ctx.Params "userID") = (s1, some user, none) →
        checkIfUserExistsMiddleware userService s ctx
          = ⟨s1, [.GetUser (ctx.Params "userID")], .next⟩)
    ∧ ((checkIfUserExistsMiddleware userService s ctx).outcome = .next ↔
        ctx.Params "userID" ≠ ""
        ∧ ∃ s1 user, userService.GetUser s (ctx.Params "userID") = (s1, some user, none)) := by
  refine ⟨?_, ?_, ?_, ?_, ?_⟩
  · intro h
    simp [checkIfUserExistsMiddleware, h, JSON, userNotFound, fiber.StatusBadRequest]
  · intro s1 user e h hg
    simp [checkIfUserExistsMiddleware, h, hg, JSON, failWith, fiber.StatusInternalServerError]
  · intro s1 h hg
    simp [checkIfUserExistsMiddleware, h, hg, JSON, userNotFound, fiber.StatusBadRequest]
  · intro s1 user h hg
    simp [checkIfUserExistsMiddleware, h, hg]
  · by_cases h : ctx.Params "userID" = ""
    · simp [checkIfUserExistsMiddleware, h, JSON]
    · rcases hg : userService.GetUser s (ctx.Params "userID") with ⟨s1, user, err⟩
      cases err <;> cases user <;> simp [checkIfUserExistsMiddleware, h, hg, JSON]

/-- C7, evaluated on the store holding `u1`: the lookup of `u1` forwards, the lookup of `u2`
and the empty id are answered 400. -/
theorem checkIfUserExistsMiddleware_cases_witness :
    checkIfUserExistsMiddleware Demo.service Demo.store (Demo.request "u1" "" "")
      = ⟨Demo.store, [.GetUser "u1"], .next⟩
    ∧ checkIfUserExistsMiddleware Demo.service Demo.store (Demo.request "u2" "" "")
      = ⟨Demo.store, [.GetUser "u2"],
          .respond ⟨400, [("status", .str "fail"), ("message", .str "User not found!")]⟩⟩
    ∧ checkIfUserExistsMiddleware Demo.service Demo.store (Demo.request "" "" "")
      = ⟨Demo.store, [],
          .respond ⟨400, [("status", .str "fail"), ("message", .str "User not found!")]⟩⟩ :=
  ⟨(checkIfUserExistsMiddleware_cases _ _ _).2.2.2.1 Demo.store "alice" (by decide) rfl,
    (checkIfUserExistsMiddleware_cases _ _ _).2.2.1 Demo.store (by decide) rfl,
    (checkIfUserExistsMiddleware_cases _ _ _).1 rfl⟩

/-- C3. For every token whose header names a signing method `m` outside the HMAC family, the
key-selection callback of `JWTMiddleware` returns an error instead of the secret on every token
with that method, so `jwt.Parse` returns an error; a request carrying the token in a bearer
header is never forwarded, and once verification is reached (the secret is set) the answer is
401 "Invalid or expired token", whatever the claims and the time. -/
theorem JWTMiddleware_rejects_non_hmac (p : jwt.Primitives) (now : Nat)
    (Getenv : String → String) (s : σ) (c : Ctx User) (tokenString : String)
    (m : jwt.SigningMethod)
    (hauth : c.Get "Authorization" = "Bearer " ++ tokenString)
    (hsp : ' ' ∉ tokenString.toList)
    (halg : jwt.headerAlg p tokenString = some (.str m.Alg))
    (hm : m.isHMAC = false) :
    (∀ token : jwt.Token, token.Method = some m →
        keyFunc (Getenv "JWT_SECRET") token = .error "Unexpected signing method")
    ∧ (jwt.Parse p now tokenString (keyFunc (Getenv "JWT_SECRET"))).err ≠ none
    ∧ (JWTMiddleware (jwt.Parse p now) Getenv s c).outcome ≠ .next
    ∧ (Getenv "JWT_SECRET" ≠ "" →
        JWTMiddleware (jwt.Parse p now) Getenv s c
          = ⟨s, [.jwtParse tokenString],
              .respond ⟨401, [("error", .str "Invalid or expired token")]⟩⟩) := by
  have herr := jwt.Parse_rejects_non_hmac p now tokenString (Getenv "JWT_SECRET") m halg hm
  have hv : verificationFailed (jwt.Parse p now tokenString (keyFunc (Getenv "JWT_SECRET")))
      = true := (verificationFailed_eq_true_iff _).2 (Or.inl herr)
  refine ⟨?_, herr, ?_, ?_⟩
  · intro token ht
    simp only [keyFunc, ht, hm]
    rfl
  · rw [JWTMiddleware_bearer (jwt.Parse p now) Getenv s c tokenString hauth hsp, hv,
      if_pos rfl]
    split_ifs <;> simp [JSON]
  · intro hs
    rw [JWTMiddleware_bearer (jwt.Parse p now) Getenv s c tokenString hauth hsp,
      if_neg hs, hv]
    rfl

/-- C3, evaluated: the unsigned token naming the method `none`, with claims that expire in
three days, is answered 401. -/
theorem JWTMiddleware_rejects_non_hmac_witness :
    JWTMiddleware (jwt.Parse Demo.primitives Demo.issuedAt) (Demo.env "s3cret") Demo.store
        (Demo.request "u1" ("Bearer " ++ Demo.unsignedNone) "")
      = ⟨Demo.store, [.jwtParse Demo.unsignedNone],
          .respond ⟨401, [("error", .str "Invalid or expired token")]⟩⟩ :=
  (JWTMiddleware_rejects_non_hmac Demo.primitives Demo.issuedAt (Demo.env "s3cret") Demo.store
    (Demo.request "u1" ("Bearer " ++ Demo.unsignedNone) "") Demo.unsignedNone .None rfl
    (by decide) (by decide) (by decide)).2.2.2 (by decide)

/-- C4, as stated, fails for the empty secret: `GenerateJWT` issues a token for it, the codec
is faithful on that token, the library accepts the token under the empty secret before its
expiry, and yet `JWTMiddleware` serving with the empty secret answers 500 "JWT secret not
configured" and does not forward the request. -/
theorem GenerateJWT_empty_secret_not_forwarded :
    GenerateJWT Demo.primitives Demo.issuedAt "" = .ok (Demo.issued "")
    ∧ jwt.FaithfulOn Demo.primitives .HS256 (issuedClaims Demo.issuedAt) ""
    ∧ ((Demo.issuedAt + 1 : Nat) : Int) < (time.Unix Demo.issuedAt + 259200) * 1000000000
    ∧ verificationFailed
        (jwt.Parse Demo.primitives (Demo.issuedAt + 1) (Demo.issued "") (keyFunc "")) = false
    ∧ JWTMiddleware (jwt.Parse Demo.primitives (Demo.issuedAt + 1)) (Demo.env "") Demo.store
          (Demo.request "u1" ("Bearer " ++ Demo.issued "") "")
        = ⟨Demo.store, [], .respond ⟨500, [("error", .str "JWT secret not configured")]⟩⟩ := by
  refine ⟨by rfl, by decide, by decide, by decide, by decide⟩

/-- C4, amended. For every non-empty secret `S` and every issuance time `t`, on a codec
faithful on the issued token: `GenerateJWT` returns a token; at every time before its expiry
the library, given the key callback for `S`, returns it marked valid with the claims
`authorized: true`, `user: example_user`, `exp:` the seconds of `t` plus 259200; and
`JWTMiddleware` serving with `S` forwards every request carrying it in a bearer header. -/
theorem GenerateJWT_roundtrip (p : jwt.Primitives) (S : String) (t now : Nat)
    (Getenv : String → String) (hS : S ≠ "") (henv : Getenv "JWT_SECRET" = S)
    (hf : jwt.FaithfulOn p .HS256 (issuedClaims t) S)
    (hnow : (now : Int) < (time.Unix t + 259200) * 1000000000) :
    ∃ tokenString, GenerateJWT p t S = .ok tokenString
      ∧ (∃ token, jwt.Parse p now tokenString (keyFunc S) = ⟨some token, none⟩
          ∧ token.Valid = true
          ∧ token.Claims = [("authorized", .bool true), ("user", .str "example_user"),
              ("exp", .num (time.Unix t + 259200))])
      ∧ ∀ (s : σ) (c : Ctx User), c.Get "Authorization" = "Bearer " ++ tokenString →
          JWTMiddleware (jwt.Parse p now) Getenv s c = ⟨s, [.jwtParse tokenString], .next⟩ := by
  have hm : jwt.SigningMethod.HS256.hmacHash = some .SHA256 := rfl
  have ht := jwt.SignedString_hmac p .HS256 .SHA256 (issuedClaims t) S hm
  have hv := jwt.Validate_issuedClaims_before now t hnow
  refine ⟨_, (GenerateJWT_eq p t S).trans ht, ?_, ?_⟩
  · rw [jwt.Parse_signed p now .HS256 .SHA256 (issuedClaims t) S S hm hf _ ht, if_pos rfl]
    simp only [hv]
    exact ⟨_, rfl, rfl, issuedClaims_eq t⟩
  · intro s c hauth
    have hs : Getenv "JWT_SECRET" ≠ "" := by rw [henv]; exact hS
    rw [JWTMiddleware_signed p now Getenv .HS256 .SHA256 (issuedClaims t) S hm hf _ ht hs s c
      hauth, if_pos ⟨by rw [henv], hv⟩]

/-- C4, amended, evaluated for the secret `s3cret`, one nanosecond after issuance. -/
theorem GenerateJWT_roundtrip_witness :
    JWTMiddleware (jwt.Parse Demo.primitives (Demo.issuedAt + 1)) (Demo.env "s3cret")
        Demo.store (Demo.request "u1" ("Bearer " ++ Demo.issued "s3cret") "")
      = ⟨Demo.store, [.jwtParse (Demo.issued "s3cret")], .next⟩ := by
  obtain ⟨tokenString, hgen, -, hall⟩ :=
    @GenerateJWT_roundtrip (List (String × String)) String Demo.primitives
      "s3cret" Demo.issuedAt (Demo.issuedAt + 1) (Demo.env "s3cret") (by decide) rfl
      (by decide) (by decide)
  have hi : Demo.issued "s3cret" = tokenString := by
    simp only [Demo.issued, hgen]
  rw [hi]
  exact hall Demo.store _ (by rw [← hi]; rfl)

/-- C5, as stated, fails for the empty secret: the token `GenerateJWT` issues for it, presented
on `GET /:userID` more than 72 hours later to a server whose secret is the same empty string,
is answered 500 "JWT secret not configured", not 401. -/
theorem GenerateJWT_expired_unset_secret :
    GenerateJWT Demo.primitives Demo.issuedAt "" = .ok (Demo.issued "")
    ∧ (time.Unix Demo.issuedAt + 259200) * 1000000000
        < ((Demo.issuedAt + time.Hour * 73 : Nat) : Int)
    ∧ serve (NewUserHandler (jwt.Parse Demo.primitives (Demo.issuedAt + time.Hour * 73))
          (Demo.env "") Demo.service) "GET" "/:userID" Demo.store
          (Demo.request "u1" ("Bearer " ++ Demo.issued "") "")
        = ⟨Demo.store, [.enter .JWTMiddleware],
            .respond ⟨500, [("error", .str "JWT secret not configured")]⟩⟩ := by
  refine ⟨by rfl, by decide, by decide⟩

/-- C5, amended. For every secret `S` and issuance time `t`, `GenerateJWT` signs the claims
with `exp` equal to the seconds of `t` plus 259200, and returns a token; on a codec faithful on
that token, a server whose secret is not empty (equal to `S` or not) answers that token,
presented in a bearer header on `GET /:userID` at any time past its expiry, with 401 "Invalid
or expired token": the chain stops in `JWTMiddleware` and `getUser` is not entered. -/
theorem GenerateJWT_expiry_enforced (p : jwt.Primitives) (S : String) (t : Nat) :
    GenerateJWT p t S
        = jwt.SignedString p (jwt.NewWithClaims .HS256
            [("authorized", .bool true), ("user", .str "example_user"),
             ("exp", .num (time.Unix t + 259200))]) S
    ∧ ∃ tokenString, GenerateJWT p t S = .ok tokenString
      ∧ ∀ (now : Nat) (Getenv : String → String) (userService : UserService σ User) (s : σ)
          (c : Ctx User),
          Getenv "JWT_SECRET" ≠ "" →
          jwt.FaithfulOn p .HS256 (issuedClaims t) S →
          (time.Unix t + 259200) * 1000000000 < (now : Int) →
          c.Get "Authorization" = "Bearer " ++ tokenString →
          serve (NewUserHandler (jwt.Parse p now) Getenv userService) "GET" "/:userID" s c
            = ⟨s, [.enter .JWTMiddleware, .jwtParse tokenString],
                .respond ⟨401, [("error", .str "Invalid or expired token")]⟩⟩ := by
  have hm : jwt.SigningMethod.HS256.hmacHash = some .SHA256 := rfl
  have ht := jwt.SignedString_hmac p .HS256 .SHA256 (issuedClaims t) S hm
  refine ⟨?_, _, (GenerateJWT_eq p t S).trans ht, ?_⟩
  · rw [GenerateJWT_eq, issuedClaims_eq]
  · intro now Getenv userService s c hs hf hnow hauth
    have hv : jwt.Validate now (issuedClaims t) = some "token is expired" :=
      jwt.Validate_issuedClaims_after now t (by omega)
    have hgate := JWTMiddleware_signed p now Getenv .HS256 .SHA256 (issuedClaims t) S hm hf _
      ht hs s c hauth
    rw [if_neg (by rw [hv]; simp)] at hgate
    rw [serve, handlersFor_GET]
    exact runChain_respond ⟨.JWTMiddleware, JWTMiddleware (jwt.Parse p now) Getenv⟩ _ s s c _ _
      hgate

/-- C5, amended, evaluated: the token issued for `s3cret`, presented 73 hours later to a
server whose secret is `s3cret`. -/
theorem GenerateJWT_expiry_enforced_witness :
    serve (NewUserHandler (jwt.Parse Demo.primitives (Demo.issuedAt + time.Hour * 73))
        (Demo.env "s3cret") Demo.service) "GET" "/:userID" Demo.store
        (Demo.request "u1" ("Bearer " ++ Demo.issued "s3cret") "")
      = ⟨Demo.store, [.enter .JWTMiddleware, .jwtParse (Demo.issued "s3cret")],
          .respond ⟨401, [("error", .str "Invalid or expired token")]⟩⟩ := by
  obtain ⟨-, tokenString, hgen, hall⟩ :=
    @GenerateJWT_expiry_enforced (List (String × String)) String
      Demo.primitives "s3cret" Demo.issuedAt
  have hi : Demo.issued "s3cret" = tokenString := by
    simp only [Demo.issued, hgen]
  rw [hi]
  exact hall (Demo.issuedAt + time.Hour * 73) (Demo.env "s3cret") Demo.service Demo.store _
    (by decide) (by decide) (by decide) (by rw [← hi]; rfl)

/-- C8. In the chains registered for `PUT /:userID` and `DELETE /:userID` the existence gate
comes first, then `JWTMiddleware`, then the endpoint handler. So for every request whose id
`GetUser` finds no user for (no error, no user), whatever the `Authorization` header, the
environment and the body, the answer is 400 "User not found!"; the trace holds the existence
gate and at most its lookup: `JWTMiddleware` is not entered, `jwt.Parse` is not called, and
neither `UpdateUser` nor `DeleteUser` is called. -/
theorem existence_gate_before_auth_gate (Parse : String → jwt.Keyfunc → jwt.ParseResult)
    (Getenv : String → String) (userService : UserService σ User) (s : σ) (c : Ctx User)
    (method : String) (hmethod : method = "PUT" ∨ method = "DELETE")
    (habsent : (userService.GetUser s (c.Params "userID")).2 = (none, none)) :
    (handlersFor (NewUserHandler Parse Getenv userService) method "/:userID").map (·.name)
        = [.checkIfUserExistsMiddleware, .JWTMiddleware,
            if method = "PUT" then .updateUser else .deleteUser]
    ∧ (serve (NewUserHandler Parse Getenv userService) method "/:userID" s c).outcome
        = .respond ⟨400, [("status", .str "fail"), ("message", .str "User not found!")]⟩
    ∧ (serve (NewUserHandler Parse Getenv userService) method "/:userID" s c).trace
        = (if c.Params "userID" = "" then [.enter .checkIfUserExistsMiddleware]
            else [.enter .checkIfUserExistsMiddleware, .GetUser (c.Params "userID")])
    ∧ Event.enter .JWTMiddleware
        ∉ (serve (NewUserHandler Parse Getenv userService) method "/:userID" s c).trace
    ∧ (∀ tokenString, Event.jwtParse tokenString
        ∉ (serve (NewUserHandler Parse Getenv userService) method "/:userID" s c).trace)
    ∧ (∀ id user, Event.UpdateUser id user
        ∉ (serve (NewUserHandler Parse Getenv userService) method "/:userID" s c).trace)
    ∧ (∀ id, Event.DeleteUser id
        ∉ (serve (NewUserHandler Parse Getenv userService) method "/:userID" s c).trace) := by
  have hgate := checkIfUserExistsMiddleware_absent userService s c habsent
  have hrun : ∀ rest : List (Handler σ User),
      runChain (⟨.checkIfUserExistsMiddleware, checkIfUserExistsMiddleware userService⟩ :: rest)
          s c
        = ⟨if c.Params "userID" = "" then s
            else (userService.GetUser s (c.Params "userID")).1,
           .enter .checkIfUserExistsMiddleware
             :: (if c.Params "userID" = "" then [] else [.GetUser (c.Params "userID")]),
           .respond ⟨400, [("status", .str "fail"), ("message", .str "User not found!")]⟩⟩ :=
    fun rest => runChain_respond _ rest s _ c _ _ hgate
  rcases hmethod with rfl | rfl
  · refine ⟨?_, ?_⟩
    · rw [handlersFor_PUT]
      rfl
    · rw [serve, handlersFor_PUT, hrun]
      by_cases h0 : c.Params "userID" = "" <;> simp [h0]
  · refine ⟨?_, ?_⟩
    · rw [handlersFor_DELETE]
      rfl
    · rw [serve, handlersFor_DELETE, hrun]
      by_cases h0 : c.Params "userID" = "" <;> simp [h0]

/-- C8, evaluated: `PUT /u2` on the store holding only `u1`, with the valid token for the
configured secret. -/
theorem existence_gate_before_auth_gate_witness :
    (serve (NewUserHandler (jwt.Parse Demo.primitives (Demo.issuedAt + 1)) (Demo.env "s3cret")
        Demo.service) "PUT" "/:userID" Demo.store
        (Demo.request "u2" ("Bearer " ++ Demo.issued "s3cret") "bob")).outcome
      = .respond ⟨400, [("status", .str "fail"), ("message", .str "User not found!")]⟩ :=
  (existence_gate_before_auth_gate (jwt.Parse Demo.primitives (Demo.issuedAt + 1))
    (Demo.env "s3cret") Demo.service Demo.store
    (Demo.request "u2" ("Bearer " ++ Demo.issued "s3cret") "bob") "PUT" (Or.inl rfl)
    (by decide)).2.1

/-- C9. On `DELETE /:userID` where the id is a non-empty route parameter for which `GetUser`
returns a user and no error, and the request has no `Authorization` header, the chain answers
401 "Missing Authorization header", not 204; the trace is the existence gate, its lookup and
`JWTMiddleware`, so `deleteUser` is not entered and `DeleteUser` is not called; the store is
the one the lookup left, unchanged when the lookup only reads. -/
theorem delete_without_header_unauthorized (Parse : String → jwt.Keyfunc → jwt.ParseResult)
    (Getenv : String → String) (userService : UserService σ User) (s s1 : σ) (c : Ctx User)
    (user : User) (hid : c.Params "userID" ≠ "")
    (hget : userService.GetUser s (c.Params "userID") = (s1, some user, none))
    (hauth : c.Get "Authorization" = "") :
    serve (NewUserHandler Parse Getenv userService) "DELETE" "/:userID" s c
        = ⟨s1, [.enter .checkIfUserExistsMiddleware, .GetUser (c.Params "userID"),
                .enter .JWTMiddleware],
            .respond ⟨401, [("error", .str "Missing Authorization header")]⟩⟩
    ∧ (serve (NewUserHandler Parse Getenv userService) "DELETE" "/:userID" s c).outcome
        ≠ .respond ⟨204, []⟩
    ∧ Event.enter .deleteUser
        ∉ (serve (NewUserHandler Parse Getenv userService) "DELETE" "/:userID" s c).trace
    ∧ (∀ id, Event.DeleteUser id
        ∉ (serve (NewUserHandler Parse Getenv userService) "DELETE" "/:userID" s c).trace)
    ∧ (s1 = s →
        (serve (NewUserHandler Parse Getenv userService) "DELETE" "/:userID" s c).store = s) := by
  have hexists : checkIfUserExistsMiddleware userService s c
      = ⟨s1, [.GetUser (c.Params "userID")], .next⟩ :=
    checkIfUserExistsMiddleware_found userService s s1 c user hid hget
  have hjwt : JWTMiddleware Parse Getenv s1 c
      = ⟨s1, [], .respond ⟨401, [("error", .str "Missing Authorization header")]⟩⟩ :=
    JWTMiddleware_missing Parse Getenv s1 c hauth
  have hrun : serve (NewUserHandler Parse Getenv userService) "DELETE" "/:userID" s c
      = ⟨s1, [.enter .checkIfUserExistsMiddleware, .GetUser (c.Params "userID"),
              .enter .JWTMiddleware],
          .respond ⟨401, [("error", .str "Missing Authorization header")]⟩⟩ := by
    rw [serve, handlersFor_DELETE,
      runChain_next ⟨.checkIfUserExistsMiddleware, checkIfUserExistsMiddleware userService⟩ _
        s s1 c _ hexists,
      runChain_respond ⟨.JWTMiddleware, JWTMiddleware Parse Getenv⟩ _ s1 s1 c _ _ hjwt]
    rfl
  rw [hrun]
  refine ⟨rfl, ?_, ?_, ?_, ?_⟩
  · simp
  · simp
  · intro id
    simp
  · intro h
    exact h

/-- C9, evaluated: `DELETE /u1` without a header on the store holding `u1`; the store still
holds `u1`. -/
theorem delete_without_header_unauthorized_witness :
    serve (NewUserHandler (jwt.Parse Demo.primitives Demo.issuedAt) (Demo.env "s3cret")
        Demo.service) "DELETE" "/:userID" Demo.store (Demo.request "u1" "" "")
      = ⟨[("u1", "alice")],
          [.enter .checkIfUserExistsMiddleware, .GetUser "u1", .enter .JWTMiddleware],
          .respond ⟨401, [("error", .str "Missing Authorization header")]⟩⟩ :=
  (delete_without_header_unauthorized (jwt.Parse Demo.primitives Demo.issuedAt)
    (Demo.env "s3cret") Demo.service Demo.store Demo.store (Demo.request "u1" "" "") "alice"
    (by decide) rfl rfl).1

/-- C10, the code against the claim. A token signed with HS384 or HS512 under the configured
secret, with claims that validate, on a faithful codec: the library returns it marked valid
with that method, and `JWTMiddleware` forwards every request carrying it in a bearer header.
The check in the key callback lets every HMAC method through, not HS256 alone. -/
theorem JWTMiddleware_accepts_HS384_HS512 (p : jwt.Primitives) (now : Nat)
    (Getenv : String → String) (m : jwt.SigningMethod) (claims : JSONMap)
    (hm : m = .HS384 ∨ m = .HS512) (hs : Getenv "JWT_SECRET" ≠ "")
    (hf : jwt.FaithfulOn p m claims (Getenv "JWT_SECRET"))
    (hv : jwt.Validate now claims = none) :
    ∃ tokenString,
      jwt.SignedString p (jwt.NewWithClaims m claims) (Getenv "JWT_SECRET") = .ok tokenString
      ∧ (∃ token, jwt.Parse p now tokenString (keyFunc (Getenv "JWT_SECRET"))
            = ⟨some token, none⟩
          ∧ token.Method = some m ∧ token.Valid = true)
      ∧ ∀ (s : σ) (c : Ctx User), c.Get "Authorization" = "Bearer " ++ tokenString →
          JWTMiddleware (jwt.Parse p now) Getenv s c = ⟨s, [.jwtParse tokenString], .next⟩ := by
  obtain ⟨h, hh⟩ : ∃ h, m.hmacHash = some h := by
    rcases hm with rfl | rfl
    · exact ⟨_, rfl⟩
    · exact ⟨_, rfl⟩
  have ht := jwt.SignedString_hmac p m h claims (Getenv "JWT_SECRET") hh
  refine ⟨_, ht, ?_, ?_⟩
  · rw [jwt.Parse_signed p now m h claims _ _ hh hf _ ht, if_pos rfl]
    simp only [hv]
    exact ⟨_, rfl, rfl, rfl⟩
  · intro s c hauth
    rw [JWTMiddleware_signed p now Getenv m h claims _ hh hf _ ht hs s c hauth,
      if_pos ⟨rfl, hv⟩]

/-- C10, evaluated: the token signed with HS384 under `s3cret` over the claims `GenerateJWT`
issues, presented one nanosecond later to a server whose secret is `s3cret`, is forwarded. -/
theorem JWTMiddleware_accepts_HS384_HS512_witness :
    JWTMiddleware (jwt.Parse Demo.primitives (Demo.issuedAt + 1)) (Demo.env "s3cret")
        Demo.store (Demo.request "u1" ("Bearer " ++ Demo.signedWith .HS384 "s3cret") "")
      = ⟨Demo.store, [.jwtParse (Demo.signedWith .HS384 "s3cret")], .next⟩ := by
  obtain ⟨tokenString, hsig, -, hall⟩ :=
    @JWTMiddleware_accepts_HS384_HS512 (List (String × String)) String
      Demo.primitives (Demo.issuedAt + 1) (Demo.env "s3cret") .HS384
      (issuedClaims Demo.issuedAt) (Or.inl rfl) (by decide) (by decide) (by decide)
  have hi : Demo.signedWith .HS384 "s3cret" = tokenString := by
    have hsig2 : jwt.SignedString Demo.primitives
        (jwt.NewWithClaims .HS384 (issuedClaims Demo.issuedAt)) "s3cret" = .ok tokenString :=
      hsig
    simp only [Demo.signedWith, hsig2]
  rw [hi]
  exact hall Demo.store _ (by rw [← hi]; rfl)

end claims
